import Mathlib

/-!
# Poly/ML foreign-function boundary: `polyffi.cpp` and `rtsentry.cpp`

A shallow embedding of the two run-time system files and the properties
checked against them.

* ML heap values are represented by value (`PolyWord`): an integer, a byte
  object (`PolyObject`), a string, or a word object of two or four fields.
* The state an entry operation acts on is `TaskData`: the save vector (root
  stack), the pending ML exception packet and the native memory that holds
  `ffi_type` descriptors.
* A C++ function that may throw is a function `TaskData → Option α × TaskData`
  (`RTS α`): `none` is a thrown exception, and the state is kept on a throw.
* What the sources take from the C library, from libffi, from the operating
  system and from other run-time files is gathered in `Platform`.
-/

namespace PolyML

/-! ## C strings -/

/-- A C character array: one `Char` per C `char`. -/
abbrev CString := List Char

/-- The string terminator. -/
def NUL : Char := Char.ofNat 0

/-- The C string a `const char *` designates: the characters before the first NUL. -/
def cstr (s : CString) : CString := s.takeWhile (fun c => c != NUL)

/-- C `strlen`. -/
def strlen (s : CString) : Nat := (cstr s).length

/-- C `strcpy(dst, src)`: the characters of `src` and a terminator are written
from the start of `dst`; the rest of `dst` is kept. -/
def strcpy (dst src : CString) : CString :=
  cstr src ++ [NUL] ++ dst.drop (strlen src + 1)

/-- Lexicographic comparison of two terminated strings, as C `strcmp` does it:
the difference of the first pair of characters that differ. -/
def strcmpAux : CString → CString → Int
  | [], [] => 0
  | [], b :: _ => - (b.toNat : Int)
  | a :: _, [] => (a.toNat : Int)
  | a :: as, b :: bs => if a = b then strcmpAux as bs else (a.toNat : Int) - (b.toNat : Int)

/-- C `strcmp`. -/
def strcmp (a b : CString) : Int := strcmpAux (cstr a) (cstr b)

/-- C `snprintf(buf, size, ...)` followed by `buf[size - 1] = 0`: of the
formatted text at most `size - 1` characters are kept. -/
def snprintf (size : Nat) (text : CString) : CString := text.take (size - 1)

/-- Two's complement reading of the low `bits` bits of `n`. -/
def toSigned (bits : Nat) (n : Int) : Int :=
  if n % 2 ^ bits < 2 ^ (bits - 1) then n % 2 ^ bits else n % 2 ^ bits - 2 ^ bits

/-- The conversion `%d` of `printf`: the argument is read as a 32-bit `int`. -/
def fmt_d (c : Nat) : CString := (toString (toSigned 32 (c : Int))).toList

/-- The conversion `%lu` of `printf`. -/
def fmt_lu (c : Nat) : CString := (toString c).toList

/-- The conversion `%s` of `printf`; a null pointer is printed as `(null)`. -/
def fmt_s : Option CString → CString
  | some s => cstr s
  | none => "(null)".toList

/-! ## ML values -/

/-- A byte object of the ML heap: `length` is its length in words, `word0` its
first word and `bytes` the bytes from offset `sizeof(PolyWord)` on.  A
`SysWord` box is the byte object of length one. -/
structure PolyObject where
  length : Nat
  word0 : Nat
  bytes : CString
deriving DecidableEq

/-- An ML value, by value: a (tagged or boxed) integer, a byte object, a
string, or a word object with two or four fields. -/
inductive PolyWord where
  | int (n : Int)
  | obj (p : PolyObject)
  | str (s : CString)
  | tuple2 (a b : PolyWord)
  | tuple4 (a b c d : PolyWord)
deriving DecidableEq

/-- The short-form integer `TAGGED(n)`. -/
def TAGGED (n : Int) : PolyWord := PolyWord.int n

/-- The call `w.AsObjPtr()->Get(i)`: field `i` of a word object. -/
def PolyWord.Get : PolyWord → Nat → PolyWord
  | .tuple2 a _, 0 => a
  | .tuple2 _ b, 1 => b
  | .tuple4 a _ _ _, 0 => a
  | .tuple4 _ b _ _, 1 => b
  | .tuple4 _ _ c _, 2 => c
  | .tuple4 _ _ _ d, 3 => d
  | _, _ => TAGGED 0

/-- The call `w.AsObjPtr()->Set(i, v)` on a word object. -/
def PolyWord.Set : PolyWord → Nat → PolyWord → PolyWord
  | .tuple2 _ b, 0, v => .tuple2 v b
  | .tuple2 a _, 1, v => .tuple2 a v
  | .tuple4 _ b c d, 0, v => .tuple4 v b c d
  | .tuple4 a _ c d, 1, v => .tuple4 a v c d
  | .tuple4 a b _ d, 2, v => .tuple4 a b v d
  | .tuple4 a b c _, 3, v => .tuple4 a b c v
  | w, _, _ => w

/-- The read `*(void**)(w.AsObjPtr())`: the first word of a byte object. -/
def PolyWord.word0 : PolyWord → Nat
  | .obj p => p.word0
  | _ => 0

/-! ## Task state -/

/-- Modelled from the spec: the root stack (class `SaveVec` of `save_vec.h`,
which is not among the sources).  `save_vec` is the content of the slots and
`save_vec_addr` the number of slots in use, the depth of the stack. -/
structure SaveVec where
  save_vec : Nat → PolyWord
  save_vec_addr : Nat

/-- A pointer to a slot of the save vector, or the null pointer. -/
inductive Handle where
  | null
  | slot (i : Nat)
deriving DecidableEq

/-- Modelled from the spec: `SaveVec::mark`, the save-point marker. -/
def SaveVec.mark (sv : SaveVec) : Nat := sv.save_vec_addr

/-- Modelled from the spec: `SaveVec::push`, which registers a value as a root
in the next free slot. -/
def SaveVec.push (sv : SaveVec) (w : PolyWord) : Handle × SaveVec :=
  (Handle.slot sv.save_vec_addr,
    { save_vec := Function.update sv.save_vec sv.save_vec_addr w,
      save_vec_addr := sv.save_vec_addr + 1 })

/-- Modelled from the spec: `SaveVec::reset`, which releases every root pushed
since the marker. -/
def SaveVec.reset (sv : SaveVec) (old_value : Nat) : SaveVec :=
  { sv with save_vec_addr := old_value }

/-- The read `h->Word()`. -/
def SaveVec.Word (sv : SaveVec) : Handle → PolyWord
  | .null => TAGGED 0
  | .slot i => sv.save_vec i

/-- The exception identifiers of `sys.h` that the two files raise. -/
inductive ExnId where
  | EXC_syserr
  | EXC_size
  | EXC_foreign
  | EXC_Fail
deriving DecidableEq

/-- An ML exception packet: identifier, message and, for `EXC_syserr`, the
error code. -/
structure poly_exn where
  ex_id : ExnId
  arg : CString
  code : Int
deriving DecidableEq

/-- The struct `ffi_type` of libffi; `elements` is the address of the element
array or zero. -/
structure ffi_type where
  size : Nat
  alignment : Nat
  type : Nat
  elements : Nat
deriving DecidableEq

/-- The state an entry operation acts on: the save vector and the pending
exception packet of the calling thread, and the native memory holding
`ffi_type` headers (`ffiTypes`, by address) and element-pointer cells
(`ffiElems`, by address). -/
structure TaskData where
  saveVec : SaveVec
  exception : Option poly_exn
  ffiTypes : Nat → ffi_type
  ffiElems : Nat → Nat

/-- The depth of the root stack: the number of slots of the save vector in use. -/
def TaskData.depth (td : TaskData) : Nat := td.saveVec.save_vec_addr

/-- A run-time function that may throw: `none` is a thrown C++ exception. -/
def RTS (α : Type) : Type := TaskData → Option α × TaskData

/-- Sequencing of run-time functions: a throw skips what follows. -/
def RTS.bind {α β : Type} (m : RTS α) (f : α → RTS β) : RTS β := fun td =>
  match m td with
  | (some a, td1) => f a td1
  | (none, td1) => (none, td1)

/-- A normal return. -/
def RTS.pure {α : Type} (a : α) : RTS α := fun td => (some a, td)

instance : Monad RTS where
  pure := RTS.pure
  bind := RTS.bind

/-- The constants of `ffi.h` listed in `constantTable`. -/
inductive FfiConst where
  | FFI_DEFAULT_ABI
  | FFI_TYPE_VOID
  | FFI_TYPE_INT
  | FFI_TYPE_FLOAT
  | FFI_TYPE_DOUBLE
  | FFI_TYPE_UINT8
  | FFI_TYPE_SINT8
  | FFI_TYPE_UINT16
  | FFI_TYPE_SINT16
  | FFI_TYPE_UINT32
  | FFI_TYPE_SINT32
  | FFI_TYPE_UINT64
  | FFI_TYPE_SINT64
  | FFI_TYPE_STRUCT
  | FFI_TYPE_POINTER
  | FFI_SIZEOF_ARG
deriving DecidableEq

/-- The predefined type descriptors of libffi listed in `ffiTypeTable`. -/
inductive FfiPrim where
  | ffi_type_void
  | ffi_type_uint8
  | ffi_type_sint8
  | ffi_type_uint16
  | ffi_type_sint16
  | ffi_type_uint32
  | ffi_type_sint32
  | ffi_type_uint64
  | ffi_type_sint64
  | ffi_type_float
  | ffi_type_double
  | ffi_type_pointer
  | ffi_type_uchar
  | ffi_type_schar
  | ffi_type_ushort
  | ffi_type_sshort
  | ffi_type_uint
  | ffi_type_sint
  | ffi_type_ulong
  | ffi_type_slong
deriving DecidableEq

/-- What the two files take from outside: sizes and constants of the build,
link-time addresses, the C library, the system loader, and run-time functions
that are not among the sources. -/
structure Platform where
  /-- The value of `defined(_WIN32)`. -/
  win32 : Bool
  /-- The value of `sizeof(PolyWord)`, in bytes. -/
  sizeofPolyWord : Nat
  /-- The value of `sizeof(size_t)`, also the size of a native pointer. -/
  sizeof_size_t : Nat
  /-- The value of `sizeof(ffi_type)`. -/
  sizeof_ffi_type : Nat
  /-- The address of the run-time function with the given name. -/
  fnAddr : String → Nat
  /-- The values of the constants of `ffi.h`. -/
  ffiConst : FfiConst → Int
  /-- The addresses of the predefined descriptors of libffi. -/
  ffiTypeAddr : FfiPrim → Nat
  /-- The conditional entries of `abiTable`, before the entry `default`. -/
  abiEntries : List (CString × Int)
  ENOMEM : Int
  /-- The conversion of an ML string to a fresh C string, also what the
  constructors of `TempString` and `TempCString` do; `none` is a null result. -/
  Poly_string_to_C_alloc : PolyWord → Option CString
  /-- C `malloc`: the address of the block, zero if there is no memory. -/
  malloc : Nat → Nat
  /-- C `calloc`: the address of the block, zero if there is no memory. -/
  calloc : Nat → Nat → Nat
  /-- POSIX `dlopen`: the handle of the library, zero on failure. -/
  dlopen : Option CString → Nat
  /-- POSIX `dlerror`: the text of the last loader error. -/
  dlerror : CString
  dlclose : Nat → Int
  dlsym : Nat → Option CString → Nat
  /-- Windows `LoadLibrary`: the handle of the library, zero on failure. -/
  LoadLibrary : Option CString → Nat
  GetLastError : Nat
  FreeLibrary : Nat → Bool
  GetProcAddress : Nat → Option CString → Nat
  hApplicationInstance : Nat
  /-- The method `TaskData::PreRTSCall`, which opens a call into the run-time system. -/
  PreRTSCall : TaskData → TaskData
  /-- The method `TaskData::PostRTSCall`, which closes it. -/
  PostRTSCall : TaskData → TaskData
  /-- The three-argument `creatEntryPointObject` that `polyffi.cpp` calls. -/
  creatEntryPointObject3 : Handle → Bool → RTS Handle

/-- The number of bits of a `PolyWord`. -/
def Platform.wordBits (pf : Platform) : Nat := 8 * pf.sizeofPolyWord

/-! ## Run-time helpers used by the two files -/

/-- Modelled from the spec: `raise_exception_string` of `run_time.cpp`: the
exception packet is recorded in the task data and control leaves by a throw. -/
def raise_exception_string {α : Type} (id : ExnId) (str : CString) : RTS α := fun td =>
  (none, { td with exception := some ⟨id, str, 0⟩ })

/-- Modelled from the spec: `raise_exception0`, a packet without message. -/
def raise_exception0 {α : Type} (id : ExnId) : RTS α := raise_exception_string id []

/-- Modelled from the spec: `raise_syscall`, the `SysErr` packet with its error code. -/
def raise_syscall {α : Type} (errmsg : CString) (err : Int) : RTS α := fun td =>
  (none, { td with exception := some ⟨ExnId.EXC_syserr, errmsg, err⟩ })

/-- Modelled from the spec: `raise_fail`, the `Fail` packet. -/
def raise_fail {α : Type} (errmsg : CString) : RTS α :=
  raise_exception_string ExnId.EXC_Fail errmsg

/-- The call `taskData->saveVec.push(w)`. -/
def push (w : PolyWord) : RTS Handle := fun td =>
  (some (td.saveVec.push w).1, { td with saveVec := (td.saveVec.push w).2 })

/-- The call `taskData->saveVec.push(w)` outside a `try` block: the handle and
the task afterwards. -/
def TaskData.push (td : TaskData) (w : PolyWord) : Handle × TaskData :=
  ((td.saveVec.push w).1, { td with saveVec := (td.saveVec.push w).2 })

/-- The read `h->Word()` in the current state. -/
def Handle.Word (h : Handle) : RTS PolyWord := fun td => (some (td.saveVec.Word h), td)

/-- The call `h->WordP()->Set(i, v)`: the object the handle refers to is updated. -/
def Handle.Set (h : Handle) (i : Nat) (v : PolyWord) : RTS Unit := fun td =>
  match h with
  | .null => (some (), td)
  | .slot k =>
    (some (), { td with saveVec :=
      { td.saveVec with
        save_vec := Function.update td.saveVec.save_vec k ((td.saveVec.save_vec k).Set i v) } })

/-- Modelled from the spec: `getPolyUnsigned` of `arb.cpp`: an ML integer as a
`POLYUNSIGNED`; a value out of range raises `Size`. -/
def getPolyUnsigned (pf : Platform) : PolyWord → RTS Nat
  | .int n => if 0 ≤ n ∧ n < 2 ^ pf.wordBits then RTS.pure n.toNat
              else raise_exception0 ExnId.EXC_size
  | _ => raise_exception0 ExnId.EXC_size

/-- Modelled from the spec: `get_C_unsigned` of `arb.cpp`: an ML integer as a
32-bit `unsigned`; a value out of range raises `Size`. -/
def get_C_unsigned : PolyWord → RTS Nat
  | .int n => if 0 ≤ n ∧ n < 2 ^ 32 then RTS.pure n.toNat
              else raise_exception0 ExnId.EXC_size
  | _ => raise_exception0 ExnId.EXC_size

/-- Modelled from the spec: `get_C_ushort` of `arb.cpp`: an ML integer as a
16-bit `unsigned short`; a value out of range raises `Size`. -/
def get_C_ushort : PolyWord → RTS Nat
  | .int n => if 0 ≤ n ∧ n < 2 ^ 16 then RTS.pure n.toNat
              else raise_exception0 ExnId.EXC_size
  | _ => raise_exception0 ExnId.EXC_size

/-- Modelled from the spec: `Make_arbitrary_precision`: the ML integer for a C
integer, registered as a root. -/
def Make_arbitrary_precision (n : Int) : RTS Handle := push (PolyWord.int n)

/-- Modelled from the spec: `Make_sysword`: a one-word byte object holding a
machine word, registered as a root. -/
def Make_sysword (p : Nat) : RTS Handle := push (PolyWord.obj ⟨1, p, []⟩)

/-- Modelled from the spec: `C_string_to_Poly`. -/
def C_string_to_Poly (s : CString) : PolyWord := PolyWord.str (cstr s)

/-- Modelled from the spec: `alloc_and_save` for a word object of `words`
fields, all initially `TAGGED(0)`, registered as a root. -/
def alloc_and_save (words : Nat) : RTS Handle :=
  push (if words = 2 then PolyWord.tuple2 (TAGGED 0) (TAGGED 0)
        else if words = 4 then PolyWord.tuple4 (TAGGED 0) (TAGGED 0) (TAGGED 0) (TAGGED 0)
        else TAGGED 0)

/-- Modelled from the spec: `alloc_and_save` with the flags
`F_BYTE_OBJ|F_WEAK_BIT|F_MUTABLE_BIT|F_NO_OVERWRITE`: a zeroed byte object of
`words` words, registered as a root. -/
def alloc_and_save_bytes (pf : Platform) (words : Nat) : RTS Handle :=
  push (PolyWord.obj ⟨words, 0, List.replicate ((words - 1) * pf.sizeofPolyWord) NUL⟩)

/-! ## `polyffi.cpp` -/

/-- The table `abiTable`: the entries of the platform, then `default`. -/
def abiTable (pf : Platform) : List (CString × Int) :=
  pf.abiEntries ++ [("default".toList, pf.ffiConst FfiConst.FFI_DEFAULT_ABI)]

/-- Table of constants returned by call 51. -/
def constantTable : List FfiConst :=
  [ FfiConst.FFI_DEFAULT_ABI,
    FfiConst.FFI_TYPE_VOID,
    FfiConst.FFI_TYPE_INT,
    FfiConst.FFI_TYPE_FLOAT,
    FfiConst.FFI_TYPE_DOUBLE,
    FfiConst.FFI_TYPE_UINT8,
    FfiConst.FFI_TYPE_SINT8,
    FfiConst.FFI_TYPE_UINT16,
    FfiConst.FFI_TYPE_SINT16,
    FfiConst.FFI_TYPE_UINT32,
    FfiConst.FFI_TYPE_SINT32,
    FfiConst.FFI_TYPE_UINT64,
    FfiConst.FFI_TYPE_SINT64,
    FfiConst.FFI_TYPE_STRUCT,
    FfiConst.FFI_TYPE_POINTER,
    FfiConst.FFI_SIZEOF_ARG ]

/-- Table of predefined ffi types. -/
def ffiTypeTable : List FfiPrim :=
  [ FfiPrim.ffi_type_void,
    FfiPrim.ffi_type_uint8,
    FfiPrim.ffi_type_sint8,
    FfiPrim.ffi_type_uint16,
    FfiPrim.ffi_type_sint16,
    FfiPrim.ffi_type_uint32,
    FfiPrim.ffi_type_sint32,
    FfiPrim.ffi_type_uint64,
    FfiPrim.ffi_type_sint64,
    FfiPrim.ffi_type_float,
    FfiPrim.ffi_type_double,
    FfiPrim.ffi_type_pointer,
    FfiPrim.ffi_type_uchar,
    FfiPrim.ffi_type_schar,
    FfiPrim.ffi_type_ushort,
    FfiPrim.ffi_type_sshort,
    FfiPrim.ffi_type_uint,
    FfiPrim.ffi_type_sint,
    FfiPrim.ffi_type_ulong,
    FfiPrim.ffi_type_slong ]

/-- The function `toSysWord`. -/
def toSysWord (p : Nat) : RTS Handle := Make_sysword p

/-- Construct an entry in the ABI table: a pair of the string and the code. -/
def mkAbitab (ab : CString × Int) : RTS Handle := do
  let name ← push (C_string_to_Poly ab.1)
  let code ← Make_arbitrary_precision ab.2
  let result ← alloc_and_save 2
  result.Set 0 (← name.Word)
  result.Set 1 (← code.Word)
  pure result

/-- Modelled from the spec: `makeList` of `run_time.cpp`: the ML list of the
values `mkEntry` makes of the table entries, in the order of the table. -/
def makeList {α : Type} (mkEntry : α → RTS Handle) : List α → RTS Handle
  | [] => push (TAGGED 0)
  | x :: xs => do
    let tail ← makeList mkEntry xs
    let head ← mkEntry x
    let cell ← alloc_and_save 2
    cell.Set 0 (← head.Word)
    cell.Set 1 (← tail.Word)
    pure cell

/-- The first loop of case 54, which counts the cells of the list: a cons cell
is a word object of two fields, head and tail, and any other word ends the
list as `ML_Cons_Cell::IsNull` does. -/
def countElems : PolyWord → Nat
  | .tuple2 _ t => countElems t + 1
  | _ => 0

/-- The second loop of case 54, `*elem++ = *(ffi_type**)(e.AsAddress())` for
each head `e` of the list: the memory after the loop and the final `elem`. -/
def storeElems (ptrSize : Nat) : PolyWord → (Nat → Nat) → Nat → (Nat → Nat) × Nat
  | .tuple2 h t, mem, elem =>
    storeElems ptrSize t (Function.update mem elem h.word0) (elem + ptrSize)
  | _, mem, elem => (mem, elem)

/-- The size passed to `calloc` in case 54: `sizeof(ffi_type)`, and if there
are elements the space for the elements plus one extra for the zero
terminator; `nElems + 1` is computed in `unsigned`, the sum in `size_t`. -/
def ffiTypeSpace (pf : Platform) (nElems : Nat) : Nat :=
  if nElems ≠ 0 then
    (pf.sizeof_ffi_type + ((nElems + 1) % 2 ^ 32) * pf.sizeof_size_t) % 2 ^ (8 * pf.sizeof_size_t)
  else pf.sizeof_ffi_type

/-- The dispatcher `poly_ffi`. -/
def poly_ffi (pf : Platform) (args code : Handle) : RTS Handle := do
  let c ← get_C_unsigned (← code.Word)
  if c = 50 then
    -- Return a list of available ABIs
    makeList mkAbitab (abiTable pf)
  else if c = 51 then do
    -- A constant from the table
    let index ← get_C_unsigned (← args.Word)
    if index ≥ constantTable.length then
      raise_exception_string ExnId.EXC_foreign "Index out of range".toList
    else
      Make_arbitrary_precision (pf.ffiConst (constantTable.getD index FfiConst.FFI_DEFAULT_ABI))
  else if c = 52 then do
    -- Return an FFI type
    let index ← get_C_unsigned (← args.Word)
    if index ≥ ffiTypeTable.length then
      raise_exception_string ExnId.EXC_foreign "Index out of range".toList
    else
      toSysWord (pf.ffiTypeAddr (ffiTypeTable.getD index FfiPrim.ffi_type_void))
  else if c = 53 then do
    -- Extract fields from ffi type.
    let ffit : ffi_type ← fun td => (some (td.ffiTypes (td.saveVec.Word args).word0), td)
    let sizeHandle ← Make_arbitrary_precision ffit.size
    let alignHandle ← Make_arbitrary_precision ffit.alignment
    let typeHandle ← Make_arbitrary_precision ffit.type
    let elemHandle ← toSysWord ffit.elements
    let resHandle ← alloc_and_save 4
    resHandle.Set 0 (← sizeHandle.Word)
    resHandle.Set 1 (← alignHandle.Word)
    resHandle.Set 2 (← typeHandle.Word)
    resHandle.Set 3 (← elemHandle.Word)
    pure resHandle
  else if c = 54 then do
    -- Construct an ffi type.
    let argsW ← args.Word
    let size ← getPolyUnsigned pf (argsW.Get 0)
    let align ← get_C_ushort (argsW.Get 1)
    let type ← get_C_ushort (argsW.Get 2)
    let nElems := countElems (argsW.Get 3) % 2 ^ 32
    -- If we need the elements add space for the elements plus
    -- one extra for the zero terminator.
    let space := ffiTypeSpace pf nElems
    let result := pf.calloc 1 space
    -- Raise an exception rather than returning zero.
    if result = 0 then raise_syscall "Insufficient memory".toList pf.ENOMEM
    else do
      let elem := if nElems ≠ 0 then result + pf.sizeof_ffi_type else 0
      let _ ← (fun td => (some (), { td with
        ffiTypes := Function.update td.ffiTypes result
          { size := size % 2 ^ (8 * pf.sizeof_size_t), alignment := align, type := type,
            elements := elem } }) : RTS Unit)
      if elem ≠ 0 then
        let _ ← (fun td =>
          let r := storeElems pf.sizeof_size_t (argsW.Get 3) td.ffiElems elem
          (some (), { td with ffiElems := Function.update r.1 r.2 0 }) : RTS Unit)
        toSysWord result
      else
        toSysWord result
  else
    raise_exception_string ExnId.EXC_foreign ("Unknown ffi function: ".toList ++ fmt_d c)

/-- The statement `Handle result = 0; try { result = body; } catch (...) { }`. -/
def tryCatch (body : RTS Handle) (td : TaskData) : Handle × TaskData :=
  match body td with
  | (some h, td1) => (h, td1)
  | (none, td1) => (Handle.null, td1)

/-- The common end of the entry operations: the save vector is reset, the
call is closed, and the word of the result, or `TAGGED(0)` for a null
result, is returned. -/
def finishCall (pf : Platform) (reset : Nat) (result : Handle) (td : TaskData) :
    PolyWord × TaskData :=
  let td1 := { td with saveVec := td.saveVec.reset reset }
  let td2 := pf.PostRTSCall td1
  (if result = Handle.null then TAGGED 0 else td2.saveVec.Word result, td2)

/-- General interface to the foreign-function operations. -/
def PolyFFIGeneral (pf : Platform) (code arg : PolyWord) (taskData : TaskData) :
    PolyWord × TaskData :=
  let td0 := pf.PreRTSCall taskData
  let reset := td0.saveVec.mark
  let pushedCode := td0.push code
  let pushedArg := pushedCode.2.push arg
  let r := tryCatch (poly_ffi pf pushedArg.1 pushedCode.1) pushedArg.2
  finishCall pf reset r.1 r.2

/-- The statement `try { body } catch (...) { }` for a body without result. -/
def tryCatchUnit (body : RTS Unit) (td : TaskData) : TaskData :=
  (body td).2

/-- Malloc memory: the `SysWord.word` value is allocated on the heap. -/
def PolyFFIMalloc (pf : Platform) (arg : PolyWord) (taskData : TaskData) :
    PolyWord × TaskData :=
  let td0 := pf.PreRTSCall taskData
  let reset := td0.saveVec.mark
  let r := tryCatch (do
      let size ← getPolyUnsigned pf arg
      toSysWord (pf.malloc size)) td0
  finishCall pf reset r.1 r.2

/-- Load a library by name. -/
def PolyFFILoadLibrary (pf : Platform) (arg : PolyWord) (taskData : TaskData) :
    PolyWord × TaskData :=
  let td0 := pf.PreRTSCall taskData
  let reset := td0.saveVec.mark
  let r := tryCatch (do
      let libName := pf.Poly_string_to_C_alloc arg
      if pf.win32 then do
        let lib := pf.LoadLibrary libName
        if lib = 0 then
          raise_exception_string ExnId.EXC_foreign
            (snprintf 256 ("Loading <".toList ++ fmt_s libName ++ "> failed. Error ".toList
              ++ fmt_lu pf.GetLastError))
        else toSysWord lib
      else do
        let lib := pf.dlopen libName
        if lib = 0 then
          raise_exception_string ExnId.EXC_foreign
            (snprintf 256 ("Loading <".toList ++ fmt_s libName ++ "> failed: ".toList
              ++ cstr pf.dlerror))
        else toSysWord lib) td0
  finishCall pf reset r.1 r.2

/-- Get the address of the executable as a library. -/
def PolyFFILoadExecutable (pf : Platform) (taskData : TaskData) : PolyWord × TaskData :=
  let td0 := pf.PreRTSCall taskData
  let reset := td0.saveVec.mark
  let r := tryCatch (do
      if pf.win32 then toSysWord pf.hApplicationInstance
      else do
        let lib := pf.dlopen none
        if lib = 0 then
          raise_exception_string ExnId.EXC_foreign
            (snprintf 256 ("Loading address of executable failed: ".toList ++ cstr pf.dlerror))
        else toSysWord lib) td0
  finishCall pf reset r.1 r.2

/-- Unload library. -/
def PolyFFIUnloadLibrary (pf : Platform) (arg : PolyWord) (taskData : TaskData) :
    PolyWord × TaskData :=
  let td0 := pf.PreRTSCall taskData
  let reset := td0.saveVec.mark
  let td1 := tryCatchUnit (do
      if pf.win32 then do
        let hMod := arg.word0
        if !pf.FreeLibrary hMod then
          raise_syscall "FreeLibrary failed".toList pf.GetLastError
        else pure ()
      else do
        let lib := arg.word0
        if pf.dlclose lib ≠ 0 then
          raise_exception_string ExnId.EXC_foreign
            (snprintf 256 ("dlclose failed: ".toList ++ cstr pf.dlerror))
        else pure ()) td0
  let td2 := { td1 with saveVec := td1.saveVec.reset reset }
  let td3 := pf.PostRTSCall td2
  (TAGGED 0, td3)

/-- Load the address of a symbol from a library. -/
def PolyFFIGetSymbolAddress (pf : Platform) (moduleAddress symbolName : PolyWord)
    (taskData : TaskData) : PolyWord × TaskData :=
  let td0 := pf.PreRTSCall taskData
  let reset := td0.saveVec.mark
  let r := tryCatch (do
      let symName := pf.Poly_string_to_C_alloc symbolName
      if pf.win32 then do
        let hMod := moduleAddress.word0
        let sym := pf.GetProcAddress hMod symName
        if sym = 0 then
          raise_exception_string ExnId.EXC_foreign
            (snprintf 256 ("Loading symbol <".toList ++ fmt_s symName ++ "> failed. Error ".toList
              ++ fmt_lu pf.GetLastError))
        else toSysWord sym
      else do
        let lib := moduleAddress.word0
        let sym := pf.dlsym lib symName
        if sym = 0 then
          raise_exception_string ExnId.EXC_foreign
            (snprintf 256 ("load_sym <".toList ++ fmt_s symName ++ "> : ".toList
              ++ cstr pf.dlerror))
        else toSysWord sym) td0
  finishCall pf reset r.1 r.2

/-- The thread-local error slots of the platform: `errno`, an `int`, and the
last-error code of Windows, a `DWORD`. -/
structure ThreadError where
  errno : Int
  lastError : Nat
deriving DecidableEq

/-- The conversion `PolyWord::FromUnsigned((POLYUNSIGNED)x)`: the value as an
unsigned machine word. -/
def FromUnsigned (pf : Platform) (x : Int) : Nat := (x % 2 ^ pf.wordBits).toNat

/-- The conversion `AsSigned()`: the machine word read as a signed word. -/
def AsSigned (pf : Platform) (w : Nat) : Int := toSigned pf.wordBits (w : Int)

/-- Get either errno or GetLastError: word 0 of the cell receives the value.
The result is the cell after the call together with the returned word. -/
def PolyFFIGetError (pf : Platform) (te : ThreadError) (addr : PolyObject) :
    Nat × PolyObject :=
  if pf.win32 then
    (0, { addr with word0 := FromUnsigned pf (te.lastError : Int) })
  else
    (0, { addr with word0 := FromUnsigned pf te.errno })

/-- Set either errno or the last-error code from word 0 of a byte cell.  The
result is the error slots after the call together with the returned word. -/
def PolyFFISetError (pf : Platform) (err : PolyObject) (te : ThreadError) :
    Nat × ThreadError :=
  if pf.win32 then
    (0, { te with lastError := err.word0 % 2 ^ pf.wordBits % 2 ^ 32 })
  else
    (0, { te with errno := toSigned 32 (AsSigned pf err.word0) })

/-- Create an external function reference. -/
def PolyFFICreateExtFn (pf : Platform) (arg : PolyWord) (taskData : TaskData) :
    PolyWord × TaskData :=
  let td0 := pf.PreRTSCall taskData
  let reset := td0.saveVec.mark
  let pushedArg := td0.push arg
  let r := tryCatch (pf.creatEntryPointObject3 pushedArg.1 true) pushedArg.2
  finishCall pf reset r.1 r.2

/-- Create an external reference to data. -/
def PolyFFICreateExtData (pf : Platform) (arg : PolyWord) (taskData : TaskData) :
    PolyWord × TaskData :=
  let td0 := pf.PreRTSCall taskData
  let reset := td0.saveVec.mark
  let pushedArg := td0.push arg
  let r := tryCatch (pf.creatEntryPointObject3 pushedArg.1 false) pushedArg.2
  finishCall pf reset r.1 r.2

/-- The names of the table `polyFFIEPT`, in order, before the end-of-list entry. -/
def polyFFIEPTNames : List String :=
  [ "PolyFFIGeneral",
    "PolySizeFloat",
    "PolySizeDouble",
    "PolyFFIGetError",
    "PolyFFISetError",
    "PolyFFICreateExtFn",
    "PolyFFICreateExtData",
    "PolyFFICallbackException",
    "PolyFFIMalloc",
    "PolyFFIFree",
    "PolyFFILoadLibrary",
    "PolyFFILoadExecutable",
    "PolyFFIUnloadLibrary",
    "PolyFFIGetSymbolAddress" ]

/-! ## `rtsentry.cpp` -/

/-- An entry of a table of run-time entry points; the end-of-list entry has
no name and a null function. -/
structure _entrypts where
  name : Option String
  entry : Nat
deriving DecidableEq

/-- The names of `entryPtTable`, in order, before the end-of-list entry. -/
def entryPtNames : List String :=
  [ -- Basic IO
    "PolyChDir",
    "PolyBasicIOGeneral",
    -- Arbitrary precision
    "PolyAddArbitrary",
    "PolySubtractArbitrary",
    "PolyMultiplyArbitrary",
    "PolyDivideArbitrary",
    "PolyRemainderArbitrary",
    "PolyQuotRemArbitrary",
    "PolyCompareArbitrary",
    "PolyGCDArbitrary",
    "PolyLCMArbitrary",
    "PolyCreateEntryPointObject",
    -- Process-env
    "PolyFinish",
    "PolyTerminate",
    "PolyProcessEnvGeneral",
    -- OS-specific
    "PolyGetOSType",
    "PolyOSSpecificGeneral",
    -- Poly-specific
    "PolySpecificGeneral",
    -- Run-time
    "PolyFullGC",
    -- Objsize
    "PolyObjSize",
    "PolyShowSize",
    "PolyObjProfile",
    -- Exporter
    "PolyExport",
    "PolyExportPortable",
    -- Share data
    "PolyShareCommonData" ]

/-- Table of RTS entry functions: each name with the address of the function
of that name, then the end-of-list entry. -/
def entryPtTable (pf : Platform) : List _entrypts :=
  entryPtNames.map (fun n => { name := some n, entry := pf.fnAddr n })
    ++ [{ name := none, entry := 0 }]

/-- The table `polyFFIEPT` of `polyffi.cpp`: each name with the address of the
function of that name, then the end-of-list entry. -/
def polyFFIEPT (pf : Platform) : List _entrypts :=
  polyFFIEPTNames.map (fun n => { name := some n, entry := pf.fnAddr n })
    ++ [{ name := none, entry := 0 }]

/-- The loop of `setEntryPoint` over the table from `ep` on: it stops at the
first entry with a null function, and returns the function of the first entry
before it whose name compares equal. -/
def findEntry (entryName : CString) : List _entrypts → Option Nat
  | [] => none
  | ep :: rest =>
    if ep.entry = 0 then none
    else
      match ep.name with
      | some n =>
        if strcmp entryName n.toList = 0 then some ep.entry
        else findEntry entryName rest
      | none => findEntry entryName rest

/-- Sets the address of the entry point in an entry point object.  The result
is the returned flag and the object after the call. -/
def setEntryPoint (pf : Platform) (p : PolyObject) : Bool × PolyObject :=
  if p.length = 0 then (false, p)
  else
    let p1 := { p with word0 := 0 } -- Clear it by default
    if p1.length = 1 then (false, p1)
    else
      let entryName := p1.bytes
      match findEntry entryName (entryPtTable pf) with
      | some entry => (true, { p1 with word0 := entry })
      | none => (false, p1)

/-- Return the string entry point, or `none` for the null pointer. -/
def getEntryPointName (p : PolyObject) : Option CString :=
  if p.length ≤ 1 then none -- Doesn't contain an entry point
  else some (cstr p.bytes)

/-- The record size computed by `creatEntryPointObject`, in words: space for
the address followed by the name as a C string.  The sum does not wrap: the
name itself lies in the address space. -/
def entryPointSpace (pf : Platform) (entryName : CString) : Nat :=
  1 + (strlen entryName + 1 + pf.sizeofPolyWord - 1) / pf.sizeofPolyWord

/-- The byte object a word points to, `w.AsObjPtr()`. -/
def PolyWord.AsObjPtr : PolyWord → PolyObject
  | .obj p => p
  | _ => ⟨0, 0, []⟩

/-- The update of the byte object a handle refers to. -/
def Handle.modifyObj (h : Handle) (f : PolyObject → PolyObject) : RTS Unit := fun td =>
  match h with
  | .null => (some (), td)
  | .slot k =>
    (some (), { td with saveVec :=
      { td.saveVec with
        save_vec := Function.update td.saveVec.save_vec k
          (PolyWord.obj (f (td.saveVec.save_vec k).AsObjPtr)) } })

/-- The call `setEntryPoint(refH->WordP())`: the object the handle refers to
is updated and the flag returned. -/
def setEntryPointAt (pf : Platform) (refH : Handle) : RTS Bool := do
  let p ← refH.Word
  refH.modifyObj (fun _ => (setEntryPoint pf p.AsObjPtr).2)
  pure (setEntryPoint pf p.AsObjPtr).1

/-- Create an entry point containing the address of the entry and the
string name. -/
def creatEntryPointObject (pf : Platform) (entryH : Handle) : RTS Handle := do
  match pf.Poly_string_to_C_alloc (← entryH.Word) with
  | none => raise_syscall "Insufficient memory".toList pf.ENOMEM
  | some entryName =>
    -- Create space for the address followed by the name as a C string.
    let space := entryPointSpace pf entryName
    let refH ← alloc_and_save_bytes pf space
    refH.modifyObj (fun p => { p with bytes := strcpy p.bytes entryName })
    if !(← setEntryPointAt pf refH) then
      raise_fail "entry point not found".toList
    else pure refH

/-- External call to create an entry point object. -/
def PolyCreateEntryPointObject (pf : Platform) (arg : PolyWord) (taskData : TaskData) :
    PolyWord × TaskData :=
  let td0 := pf.PreRTSCall taskData
  let reset := td0.saveVec.mark
  let pushedArg := td0.push arg
  let r := tryCatch (creatEntryPointObject pf pushedArg.1) pushedArg.2
  finishCall pf reset r.1 r.2

/-- The ML list of the given words: cons cells ended by `TAGGED(0)`. -/
def mlList : List PolyWord → PolyWord
  | [] => TAGGED 0
  | h :: t => PolyWord.tuple2 h (mlList t)

/-- The `SysWord` box of a machine word, as `Make_sysword` makes it. -/
def sysword (p : Nat) : PolyWord := PolyWord.obj ⟨1, p, []⟩

/-- The task with the opcode and the argument pushed as roots, as
`PolyFFIGeneral` pushes them before it calls `poly_ffi`. -/
def armed (td : TaskData) (code arg : PolyWord) : TaskData :=
  ((td.push code).2.push arg).2

/-- A call of `poly_ffi` with opcode `c` and argument `arg` pushed as roots:
the word of the returned handle, or `none` if the call raised. -/
def callFFI (pf : Platform) (c : Nat) (arg : PolyWord) (td : TaskData) :
    Option PolyWord × TaskData :=
  match poly_ffi pf (Handle.slot (td.depth + 1)) (Handle.slot td.depth)
      (armed td (TAGGED c) arg) with
  | (some h, td1) => (some (td1.saveVec.Word h), td1)
  | (none, td1) => (none, td1)

/-- The element array at address `p` holds exactly the descriptors `es`, in
order, followed by a null terminator. -/
def holdsElements (ptrSize : Nat) (mem : Nat → Nat) (p : Nat) (es : List Nat) : Prop :=
  p ≠ 0 ∧ (∀ i (h : i < es.length), mem (p + i * ptrSize) = es[i]) ∧
    mem (p + es.length * ptrSize) = 0

instance (ptrSize : Nat) (mem : Nat → Nat) (p : Nat) (es : List Nat) :
    Decidable (holdsElements ptrSize mem p es) := by
  unfold holdsElements
  exact inferInstance

/-- The walk over an element array from `p` on, as the native-call engine does
it: the cells up to the first null, reading at most `fuel` cells. -/
def readElements (ptrSize : Nat) (mem : Nat → Nat) : Nat → Nat → Option (List Nat)
  | 0, _ => none
  | fuel + 1, p =>
    if mem p = 0 then some []
    else (readElements ptrSize mem fuel (p + ptrSize)).map (fun es => mem p :: es)

/-- The element descriptors of a descriptor whose `elements` field is `p`: none
for a null pointer, else the walk over the array. -/
def elementsOf (ptrSize : Nat) (mem : Nat → Nat) (fuel p : Nat) : Option (List Nat) :=
  if p = 0 then some [] else readElements ptrSize mem fuel p

/-- Every handle the function returns is a slot of the save vector, never the
null pointer. -/
def ReturnsSlot (m : RTS Handle) : Prop :=
  ∀ td h td1, m td = (some h, td1) → ∃ i, h = Handle.slot i

/-! ## A concrete platform and state -/

/-- A task with an empty save vector, no pending exception and zeroed native memory. -/
def emptyTask : TaskData :=
  { saveVec := { save_vec := fun _ => TAGGED 0, save_vec_addr := 0 },
    exception := none,
    ffiTypes := fun _ => ⟨0, 0, 0, 0⟩,
    ffiElems := fun _ => 0 }

/-- The constants of `ffi.h` for libffi on x86-64 Linux. -/
def linuxConst : FfiConst → Int
  | .FFI_DEFAULT_ABI => 2
  | .FFI_TYPE_VOID => 0
  | .FFI_TYPE_INT => 1
  | .FFI_TYPE_FLOAT => 2
  | .FFI_TYPE_DOUBLE => 3
  | .FFI_TYPE_UINT8 => 5
  | .FFI_TYPE_SINT8 => 6
  | .FFI_TYPE_UINT16 => 7
  | .FFI_TYPE_SINT16 => 8
  | .FFI_TYPE_UINT32 => 9
  | .FFI_TYPE_SINT32 => 10
  | .FFI_TYPE_UINT64 => 11
  | .FFI_TYPE_SINT64 => 12
  | .FFI_TYPE_STRUCT => 13
  | .FFI_TYPE_POINTER => 14
  | .FFI_SIZEOF_ARG => 8

/-- A 64-bit POSIX platform on which the loader finds nothing and the C
allocator answers every request with the same block. -/
def linux64 : Platform :=
  { win32 := false,
    sizeofPolyWord := 8,
    sizeof_size_t := 8,
    sizeof_ffi_type := 24,
    fnAddr := fun n => 4096 + 16 * n.length,
    ffiConst := linuxConst,
    ffiTypeAddr := fun t => 8192 + 24 * (ffiTypeTable.indexOf t),
    abiEntries := [("unix64".toList, 2)],
    ENOMEM := 12,
    Poly_string_to_C_alloc := fun w =>
      match w with
      | .str s => some s
      | _ => none,
    malloc := fun _ => 65536,
    calloc := fun _ _ => 65536,
    dlopen := fun _ => 0,
    dlerror := "cannot open shared object file".toList,
    dlclose := fun _ => 0,
    dlsym := fun _ _ => 0,
    LoadLibrary := fun _ => 0,
    GetLastError := 126,
    FreeLibrary := fun _ => true,
    GetProcAddress := fun _ _ => 0,
    hApplicationInstance := 4194304,
    PreRTSCall := fun td => td,
    PostRTSCall := fun td => td,
    creatEntryPointObject3 := fun _ _ => raise_fail "entry point not found".toList }

/-- A task whose native memory holds, at address 4096, the descriptor of a
struct of two doubles: size 16, alignment 8, kind `FFI_TYPE_STRUCT`, and an
element array at 4120 with the address of `ffi_type_double` twice and a null. -/
def structTask : TaskData :=
  { emptyTask with
    ffiTypes := Function.update emptyTask.ffiTypes 4096 ⟨16, 8, 13, 4120⟩,
    ffiElems := Function.update (Function.update emptyTask.ffiElems 4120 8432) 4128 8432 }

/-- The platform `linux64` with a C allocator that has no memory left. -/
def linux64NoMemory : Platform := { linux64 with calloc := fun _ _ => 0 }

/-- The platform `linux64` built for Windows. -/
def windows64 : Platform := { linux64 with win32 := true }

/-! ## Properties -/

section Monad

theorem RTS.bind_apply {α β : Type} (m : RTS α) (f : α → RTS β) (td : TaskData) :
    (m >>= f) td = match m td with
      | (some a, td1) => f a td1
      | (none, td1) => (none, td1) := rfl

theorem RTS.pure_apply {α : Type} (a : α) (td : TaskData) :
    (pure a : RTS α) td = (some a, td) := rfl

theorem RTS.bind_some {α β : Type} {m : RTS α} {f : α → RTS β} {t u : TaskData} {a : α}
    (h : m t = (some a, u)) : (m >>= f) t = f a u := by
  rw [RTS.bind_apply, h]

theorem ReturnsSlot.bind {α : Type} (m : RTS α) (f : α → RTS Handle)
    (hf : ∀ a, ReturnsSlot (f a)) : ReturnsSlot (m >>= f) := by
  intro td h td1 heq
  rw [RTS.bind_apply] at heq
  rcases hm : m td with ⟨_ | a, td2⟩
  · rw [hm] at heq
    simp at heq
  · rw [hm] at heq
    exact hf a td2 h td1 heq

theorem ReturnsSlot.bind_slot (m : RTS Handle) (f : Handle → RTS Handle)
    (hm : ReturnsSlot m) (hf : ∀ i, ReturnsSlot (f (Handle.slot i))) :
    ReturnsSlot (m >>= f) := by
  intro td h td1 heq
  rw [RTS.bind_apply] at heq
  rcases hmt : m td with ⟨_ | a, td2⟩
  · rw [hmt] at heq
    simp at heq
  · rw [hmt] at heq
    obtain ⟨i, rfl⟩ := hm td a td2 hmt
    exact hf i td2 h td1 heq

theorem ReturnsSlot.push (w : PolyWord) : ReturnsSlot (push w) := by
  intro td h td1 heq
  simp only [PolyML.push, SaveVec.push, Prod.mk.injEq, Option.some.injEq] at heq
  exact ⟨_, heq.1.symm⟩

theorem ReturnsSlot.pure (i : Nat) : ReturnsSlot (pure (Handle.slot i)) := by
  intro td h td1 heq
  have h1 : (some (Handle.slot i), td) = (some h, td1) := heq
  simp only [Prod.mk.injEq, Option.some.injEq] at h1
  exact ⟨_, h1.1.symm⟩

theorem ReturnsSlot.raise_exception_string (id : ExnId) (str : CString) :
    ReturnsSlot (raise_exception_string id str) := by
  intro td h td1 heq
  simp [PolyML.raise_exception_string] at heq

theorem ReturnsSlot.raise_syscall (msg : CString) (err : Int) :
    ReturnsSlot (raise_syscall msg err) := by
  intro td h td1 heq
  simp [PolyML.raise_syscall] at heq

theorem ReturnsSlot.alloc_and_save (words : Nat) : ReturnsSlot (alloc_and_save words) :=
  ReturnsSlot.push _

theorem ReturnsSlot.mkAbitab (ab : CString × Int) : ReturnsSlot (mkAbitab ab) := by
  unfold PolyML.mkAbitab
  refine ReturnsSlot.bind _ _ (fun name => ReturnsSlot.bind _ _ (fun code => ?_))
  refine ReturnsSlot.bind_slot _ _ (ReturnsSlot.alloc_and_save 2) (fun i => ?_)
  refine ReturnsSlot.bind _ _ (fun _ => ReturnsSlot.bind _ _ (fun _ => ?_))
  refine ReturnsSlot.bind _ _ (fun _ => ReturnsSlot.bind _ _ (fun _ => ?_))
  exact ReturnsSlot.pure i

theorem ReturnsSlot.makeList {α : Type} (mkEntry : α → RTS Handle) (l : List α) :
    ReturnsSlot (makeList mkEntry l) := by
  cases l with
  | nil => exact ReturnsSlot.push _
  | cons x xs =>
    unfold PolyML.makeList
    refine ReturnsSlot.bind _ _ (fun tail => ReturnsSlot.bind _ _ (fun head => ?_))
    refine ReturnsSlot.bind_slot _ _ (ReturnsSlot.alloc_and_save 2) (fun i => ?_)
    refine ReturnsSlot.bind _ _ (fun _ => ReturnsSlot.bind _ _ (fun _ => ?_))
    refine ReturnsSlot.bind _ _ (fun _ => ReturnsSlot.bind _ _ (fun _ => ?_))
    exact ReturnsSlot.pure i

theorem ReturnsSlot.poly_ffi (pf : Platform) (args code : Handle) :
    ReturnsSlot (poly_ffi pf args code) := by
  unfold PolyML.poly_ffi
  refine ReturnsSlot.bind _ _ (fun w => ReturnsSlot.bind _ _ (fun c => ?_))
  split_ifs
  · exact ReturnsSlot.makeList _ _
  · refine ReturnsSlot.bind _ _ (fun w => ReturnsSlot.bind _ _ (fun index => ?_))
    split_ifs
    · exact ReturnsSlot.raise_exception_string _ _
    · exact ReturnsSlot.push _
  · refine ReturnsSlot.bind _ _ (fun w => ReturnsSlot.bind _ _ (fun index => ?_))
    split_ifs
    · exact ReturnsSlot.raise_exception_string _ _
    · exact ReturnsSlot.push _
  · refine ReturnsSlot.bind _ _ (fun ffit => ReturnsSlot.bind _ _ (fun _ => ?_))
    refine ReturnsSlot.bind _ _ (fun _ => ReturnsSlot.bind _ _ (fun _ => ?_))
    refine ReturnsSlot.bind _ _ (fun _ => ?_)
    refine ReturnsSlot.bind_slot _ _ (ReturnsSlot.alloc_and_save 4) (fun i => ?_)
    refine ReturnsSlot.bind _ _ (fun _ => ReturnsSlot.bind _ _ (fun _ => ?_))
    refine ReturnsSlot.bind _ _ (fun _ => ReturnsSlot.bind _ _ (fun _ => ?_))
    refine ReturnsSlot.bind _ _ (fun _ => ReturnsSlot.bind _ _ (fun _ => ?_))
    refine ReturnsSlot.bind _ _ (fun _ => ReturnsSlot.bind _ _ (fun _ => ?_))
    exact ReturnsSlot.pure i
  · refine ReturnsSlot.bind _ _ (fun argsW => ReturnsSlot.bind _ _ (fun size => ?_))
    refine ReturnsSlot.bind _ _ (fun align => ReturnsSlot.bind _ _ (fun type => ?_))
    dsimp only
    split_ifs
    all_goals first
      | exact ReturnsSlot.raise_syscall _ _
      | exact ReturnsSlot.bind _ _ (fun _ => ReturnsSlot.bind _ _ (fun _ => ReturnsSlot.push _))
      | exact ReturnsSlot.bind _ _ (fun _ => ReturnsSlot.push _)
  · exact ReturnsSlot.raise_exception_string _ _

end Monad

section Protocol

theorem finishCall_depth (pf : Platform)
    (hpost : ∀ td, (pf.PostRTSCall td).depth = td.depth)
    (reset : Nat) (result : Handle) (td : TaskData) :
    (finishCall pf reset result td).2.depth = reset := by
  simp only [finishCall, hpost]
  rfl

/-- C1: every wrapped entry operation leaves the save-vector depth as it was
before the call, for every initial state and every argument, whether the
delegate returns a result or raises an exception; `PreRTSCall` and
`PostRTSCall`, which are not among the sources, are taken to leave the depth
alone. -/
theorem entry_operations_keep_save_vector_depth (pf : Platform)
    (hpre : ∀ td, (pf.PreRTSCall td).depth = td.depth)
    (hpost : ∀ td, (pf.PostRTSCall td).depth = td.depth) :
    (∀ code arg td, (PolyFFIGeneral pf code arg td).2.depth = td.depth) ∧
    (∀ arg td, (PolyFFIMalloc pf arg td).2.depth = td.depth) ∧
    (∀ arg td, (PolyFFILoadLibrary pf arg td).2.depth = td.depth) ∧
    (∀ td, (PolyFFILoadExecutable pf td).2.depth = td.depth) ∧
    (∀ arg td, (PolyFFIUnloadLibrary pf arg td).2.depth = td.depth) ∧
    (∀ m n td, (PolyFFIGetSymbolAddress pf m n td).2.depth = td.depth) ∧
    (∀ arg td, (PolyFFICreateExtFn pf arg td).2.depth = td.depth) ∧
    (∀ arg td, (PolyFFICreateExtData pf arg td).2.depth = td.depth) ∧
    (∀ arg td, (PolyCreateEntryPointObject pf arg td).2.depth = td.depth) := by
  refine ⟨?_, ?_, ?_, ?_, ?_, ?_, ?_, ?_, ?_⟩
  · intro code arg td
    simp only [PolyFFIGeneral, finishCall_depth pf hpost, SaveVec.mark]
    exact hpre td
  · intro arg td
    simp only [PolyFFIMalloc, finishCall_depth pf hpost, SaveVec.mark]
    exact hpre td
  · intro arg td
    simp only [PolyFFILoadLibrary, finishCall_depth pf hpost, SaveVec.mark]
    exact hpre td
  · intro td
    simp only [PolyFFILoadExecutable, finishCall_depth pf hpost, SaveVec.mark]
    exact hpre td
  · intro arg td
    simp only [PolyFFIUnloadLibrary, hpost, SaveVec.mark]
    simp only [TaskData.depth, SaveVec.reset]
    exact hpre td
  · intro m n td
    simp only [PolyFFIGetSymbolAddress, finishCall_depth pf hpost, SaveVec.mark]
    exact hpre td
  · intro arg td
    simp only [PolyFFICreateExtFn, finishCall_depth pf hpost, SaveVec.mark]
    exact hpre td
  · intro arg td
    simp only [PolyFFICreateExtData, finishCall_depth pf hpost, SaveVec.mark]
    exact hpre td
  · intro arg td
    simp only [PolyCreateEntryPointObject, finishCall_depth pf hpost, SaveVec.mark]
    exact hpre td

/-- C2: `PolyFFIGeneral` always returns a word: it is `TAGGED(0)` whenever the
dispatched `poly_ffi` raises, and otherwise the word in the slot of the handle
`poly_ffi` returned, which is never the null handle; `PostRTSCall`, which is
not among the sources, is taken to leave the save vector alone. -/
theorem PolyFFIGeneral_returns_sentinel_or_word (pf : Platform)
    (hpost : ∀ td, (pf.PostRTSCall td).saveVec = td.saveVec)
    (code arg : PolyWord) (td : TaskData) :
    let td0 := pf.PreRTSCall td
    let pushedCode := td0.push code
    let pushedArg := pushedCode.2.push arg
    let r := poly_ffi pf pushedArg.1 pushedCode.1 pushedArg.2
    (r.1 = none → (PolyFFIGeneral pf code arg td).1 = TAGGED 0) ∧
    (∀ h, r.1 = some h →
      ∃ i, h = Handle.slot i ∧ (PolyFFIGeneral pf code arg td).1 = r.2.saveVec.save_vec i) := by
  intro td0 pushedCode pushedArg r
  have hgen : PolyFFIGeneral pf code arg td =
      finishCall pf td0.saveVec.mark (tryCatch (fun _ => r) td0).1 (tryCatch (fun _ => r) td0).2 :=
    rfl
  rcases hr : r with ⟨_ | h, td1⟩
  · refine ⟨fun _ => ?_, fun h hh => by simp at hh⟩
    rw [hgen]
    simp [tryCatch, hr, finishCall]
  · refine ⟨fun hh => by simp at hh, fun h2 hh => ?_⟩
    simp only [Option.some.injEq] at hh
    subst hh
    obtain ⟨i, rfl⟩ := ReturnsSlot.poly_ffi pf pushedArg.1 pushedCode.1 _ h td1 hr
    refine ⟨i, rfl, ?_⟩
    rw [hgen]
    simp [tryCatch, hr, finishCall, hpost, SaveVec.Word, SaveVec.reset]

end Protocol

section Dispatcher

theorem get_C_unsigned_int (n : Nat) (h : n < 2 ^ 32) (td : TaskData) :
    get_C_unsigned (PolyWord.int n) td = (some n, td) := by
  have h1 : (0 : Int) ≤ n ∧ (n : Int) < 2 ^ 32 := ⟨Int.natCast_nonneg n, by exact_mod_cast h⟩
  simp only [get_C_unsigned, h1, and_self, if_true, Int.toNat_ofNat]
  rfl

theorem get_C_ushort_int (n : Nat) (h : n < 2 ^ 16) (td : TaskData) :
    get_C_ushort (PolyWord.int n) td = (some n, td) := by
  have h1 : (0 : Int) ≤ n ∧ (n : Int) < 2 ^ 16 := ⟨Int.natCast_nonneg n, by exact_mod_cast h⟩
  simp only [get_C_ushort, h1, and_self, if_true, Int.toNat_ofNat]
  rfl

theorem getPolyUnsigned_int (pf : Platform) (n : Nat) (h : n < 2 ^ pf.wordBits)
    (td : TaskData) : getPolyUnsigned pf (PolyWord.int n) td = (some n, td) := by
  have h1 : (0 : Int) ≤ n ∧ (n : Int) < 2 ^ pf.wordBits :=
    ⟨Int.natCast_nonneg n, by exact_mod_cast h⟩
  simp only [getPolyUnsigned, h1, and_self, if_true, Int.toNat_ofNat]
  rfl

theorem poly_ffi_51 (pf : Platform) (args code : Handle) (td : TaskData) (index : Nat)
    (hindex : index < 2 ^ 32) (hargs : td.saveVec.Word args = PolyWord.int index)
    (hcode : td.saveVec.Word code = PolyWord.int 51) :
    poly_ffi pf args code td =
      (if index ≥ constantTable.length then
        raise_exception_string ExnId.EXC_foreign "Index out of range".toList
      else
        Make_arbitrary_precision
          (pf.ffiConst (constantTable.getD index FfiConst.FFI_DEFAULT_ABI))) td := by
  unfold poly_ffi
  rw [RTS.bind_some (a := PolyWord.int (51 : Nat)) (u := td) (by simp [Handle.Word, hcode]),
    RTS.bind_some (get_C_unsigned_int 51 (by norm_num) td)]
  simp only [show ¬ (51 : Nat) = 50 by decide, if_false, if_true]
  rw [RTS.bind_some (a := PolyWord.int index) (u := td) (by simp [Handle.Word, hargs]),
    RTS.bind_some (get_C_unsigned_int index hindex td)]

theorem poly_ffi_52 (pf : Platform) (args code : Handle) (td : TaskData) (index : Nat)
    (hindex : index < 2 ^ 32) (hargs : td.saveVec.Word args = PolyWord.int index)
    (hcode : td.saveVec.Word code = PolyWord.int 52) :
    poly_ffi pf args code td =
      (if index ≥ ffiTypeTable.length then
        raise_exception_string ExnId.EXC_foreign "Index out of range".toList
      else
        toSysWord (pf.ffiTypeAddr (ffiTypeTable.getD index FfiPrim.ffi_type_void))) td := by
  unfold poly_ffi
  rw [RTS.bind_some (a := PolyWord.int (52 : Nat)) (u := td) (by simp [Handle.Word, hcode]),
    RTS.bind_some (get_C_unsigned_int 52 (by norm_num) td)]
  simp only [show ¬ (52 : Nat) = 50 by decide, show ¬ (52 : Nat) = 51 by decide, if_false,
    if_true]
  rw [RTS.bind_some (a := PolyWord.int index) (u := td) (by simp [Handle.Word, hargs]),
    RTS.bind_some (get_C_unsigned_int index hindex td)]

theorem push_word (w : PolyWord) (td : TaskData) :
    ∃ r, (push w td).1 = some r ∧ (push w td).2.saveVec.Word r = w :=
  ⟨Handle.slot td.saveVec.save_vec_addr, rfl, by simp [push, SaveVec.push, SaveVec.Word]⟩

/-- C5: an index at or beyond the end of the constant table (16 entries, opcode
51) or of the primitive type table (20 entries, opcode 52) makes the lookup
raise the `Foreign` exception with the message `Index out of range` and changes
nothing else in the state; an index below the bound makes it return the table
entry at that index. -/
theorem table_lookup_checks_bounds (pf : Platform) (args code : Handle) (td : TaskData)
    (index : Nat) (hindex : index < 2 ^ 32)
    (hargs : td.saveVec.Word args = PolyWord.int index) :
    constantTable.length = 16 ∧ ffiTypeTable.length = 20 ∧
    (td.saveVec.Word code = PolyWord.int 51 →
      (constantTable.length ≤ index →
        poly_ffi pf args code td =
          (none, { td with
            exception := some ⟨ExnId.EXC_foreign, "Index out of range".toList, 0⟩ })) ∧
      (∀ h : index < constantTable.length,
        ∃ r, (poly_ffi pf args code td).1 = some r ∧
          (poly_ffi pf args code td).2.saveVec.Word r
            = PolyWord.int (pf.ffiConst constantTable[index]))) ∧
    (td.saveVec.Word code = PolyWord.int 52 →
      (ffiTypeTable.length ≤ index →
        poly_ffi pf args code td =
          (none, { td with
            exception := some ⟨ExnId.EXC_foreign, "Index out of range".toList, 0⟩ })) ∧
      (∀ h : index < ffiTypeTable.length,
        ∃ r, (poly_ffi pf args code td).1 = some r ∧
          (poly_ffi pf args code td).2.saveVec.Word r
            = PolyWord.obj ⟨1, pf.ffiTypeAddr ffiTypeTable[index], []⟩)) := by
  refine ⟨rfl, rfl, fun hcode => ⟨fun hge => ?_, fun hlt => ?_⟩,
    fun hcode => ⟨fun hge => ?_, fun hlt => ?_⟩⟩
  · rw [poly_ffi_51 pf args code td index hindex hargs hcode, if_pos hge]
    rfl
  · rw [poly_ffi_51 pf args code td index hindex hargs hcode, if_neg (by omega),
      List.getD_eq_getElem _ _ hlt]
    exact push_word _ td
  · rw [poly_ffi_52 pf args code td index hindex hargs hcode, if_pos hge]
    rfl
  · rw [poly_ffi_52 pf args code td index hindex hargs hcode, if_neg (by omega),
      List.getD_eq_getElem _ _ hlt]
    exact push_word _ td

theorem toSigned_32_small (c : Nat) (h : c < 2 ^ 31) : toSigned 32 (c : Int) = c := by
  have h1 : (c : Int) % 2 ^ 32 = c := Int.emod_eq_of_lt (Int.natCast_nonneg c) (by omega)
  unfold toSigned
  rw [h1, if_pos (by norm_num; omega)]

theorem toSigned_32_large (c : Nat) (h : 2 ^ 31 ≤ c) (h32 : c < 2 ^ 32) :
    toSigned 32 (c : Int) = (c : Int) - 2 ^ 32 := by
  have h1 : (c : Int) % 2 ^ 32 = c := Int.emod_eq_of_lt (Int.natCast_nonneg c) (by omega)
  unfold toSigned
  rw [h1, if_neg (by norm_num; omega)]

/-- C8: for an opcode `c` outside 50..54, `poly_ffi` raises the `Foreign`
exception with the message `Unknown ffi function: ` followed by `c` as `%d`
prints it, that is `c` read as a signed 32-bit `int`: the decimal form of `c`
below 2^31 and of the negative number `c - 2^32` from 2^31 on. -/
theorem unknown_opcode_message_prints_signed (pf : Platform) (args code : Handle)
    (td : TaskData) (c : Nat) (hc : c < 2 ^ 32) (hout : c < 50 ∨ 54 < c)
    (hcode : td.saveVec.Word code = PolyWord.int c) :
    poly_ffi pf args code td =
      (none, { td with
        exception := some ⟨ExnId.EXC_foreign,
          "Unknown ffi function: ".toList ++ (toString (toSigned 32 (c : Int))).toList, 0⟩ }) ∧
    (c < 2 ^ 31 → toSigned 32 (c : Int) = (c : Int)) ∧
    (2 ^ 31 ≤ c → toSigned 32 (c : Int) = (c : Int) - 2 ^ 32) := by
  refine ⟨?_, toSigned_32_small c, fun h => toSigned_32_large c h hc⟩
  unfold poly_ffi
  rw [RTS.bind_some (a := PolyWord.int c) (u := td) (by simp [Handle.Word, hcode]),
    RTS.bind_some (get_C_unsigned_int c hc td),
    if_neg (by omega), if_neg (by omega), if_neg (by omega), if_neg (by omega),
    if_neg (by omega)]
  rfl

theorem countElems_mlList (ws : List PolyWord) : countElems (mlList ws) = ws.length := by
  induction ws with
  | nil => rfl
  | cons h t ih => simp [mlList, countElems, ih]

theorem storeElems_mlList (ptrSize : Nat) (ws : List PolyWord) :
    ∀ (mem : Nat → Nat) (elem : Nat),
      (storeElems ptrSize (mlList ws) mem elem).2 = elem + ws.length * ptrSize ∧
      (∀ a, a < elem → (storeElems ptrSize (mlList ws) mem elem).1 a = mem a) ∧
      (0 < ptrSize → ∀ i (h : i < ws.length),
        (storeElems ptrSize (mlList ws) mem elem).1 (elem + i * ptrSize) = ws[i].word0) := by
  induction ws with
  | nil =>
    intro mem elem
    refine ⟨by simp [mlList, TAGGED, storeElems], fun a _ => by simp [mlList, TAGGED, storeElems],
      fun _ i h => absurd h (by simp)⟩
  | cons w t ih =>
    intro mem elem
    obtain ⟨h1, h2, h3⟩ := ih (Function.update mem elem w.word0) (elem + ptrSize)
    simp only [mlList, storeElems]
    refine ⟨?_, ?_, ?_⟩
    · rw [h1, List.length_cons]; ring
    · intro a ha
      rw [h2 a (by omega), Function.update_noteq (by omega)]
    · intro hps i hi
      cases i with
      | zero =>
        rw [Nat.zero_mul, Nat.add_zero, h2 elem (by omega), Function.update_same]
        rfl
      | succ j =>
        have hj : j < t.length := by simpa using hi
        have := h3 hps j hj
        rw [show elem + (j + 1) * ptrSize = elem + ptrSize + j * ptrSize by ring, this]
        rfl

theorem poly_ffi_53 (pf : Platform) (args code : Handle) (td : TaskData)
    (hcode : td.saveVec.Word code = PolyWord.int 53) :
    ∃ h td1, poly_ffi pf args code td = (some h, td1) ∧
      td1.saveVec.Word h =
        PolyWord.tuple4 (PolyWord.int (td.ffiTypes (td.saveVec.Word args).word0).size)
          (PolyWord.int (td.ffiTypes (td.saveVec.Word args).word0).alignment)
          (PolyWord.int (td.ffiTypes (td.saveVec.Word args).word0).type)
          (sysword (td.ffiTypes (td.saveVec.Word args).word0).elements) ∧
      td1.ffiTypes = td.ffiTypes ∧ td1.ffiElems = td.ffiElems ∧
      td1.exception = td.exception := by
  unfold poly_ffi
  rw [RTS.bind_some (a := PolyWord.int (53 : Nat)) (u := td) (by simp [Handle.Word, hcode]),
    RTS.bind_some (get_C_unsigned_int 53 (by norm_num) td)]
  simp only [show ¬ (53 : Nat) = 50 by decide, show ¬ (53 : Nat) = 51 by decide,
    show ¬ (53 : Nat) = 52 by decide, if_false, if_true]
  refine ⟨_, _, rfl, ?_, rfl, rfl, rfl⟩
  simp [SaveVec.Word, SaveVec.push, PolyWord.Set, TAGGED, sysword, Function.update_apply,
    Nat.add_assoc]

theorem poly_ffi_54 (pf : Platform) (args code : Handle) (td : TaskData)
    (size align type : Nat) (list : PolyWord)
    (hcode : td.saveVec.Word code = PolyWord.int 54)
    (hargs : td.saveVec.Word args =
      PolyWord.tuple4 (PolyWord.int size) (PolyWord.int align) (PolyWord.int type) list)
    (hsize : size < 2 ^ pf.wordBits) (halign : align < 2 ^ 16) (htype : type < 2 ^ 16)
    (hcalloc : pf.calloc 1 (ffiTypeSpace pf (countElems list % 2 ^ 32)) ≠ 0) :
    poly_ffi pf args code td =
      toSysWord (pf.calloc 1 (ffiTypeSpace pf (countElems list % 2 ^ 32)))
        { td with
          ffiTypes := Function.update td.ffiTypes
            (pf.calloc 1 (ffiTypeSpace pf (countElems list % 2 ^ 32)))
            { size := size % 2 ^ (8 * pf.sizeof_size_t), alignment := align, type := type,
              elements :=
                if countElems list % 2 ^ 32 ≠ 0 then
                  pf.calloc 1 (ffiTypeSpace pf (countElems list % 2 ^ 32)) + pf.sizeof_ffi_type
                else 0 },
          ffiElems :=
            if countElems list % 2 ^ 32 ≠ 0 then
              Function.update
                (storeElems pf.sizeof_size_t list td.ffiElems
                  (pf.calloc 1 (ffiTypeSpace pf (countElems list % 2 ^ 32))
                    + pf.sizeof_ffi_type)).1
                (storeElems pf.sizeof_size_t list td.ffiElems
                  (pf.calloc 1 (ffiTypeSpace pf (countElems list % 2 ^ 32))
                    + pf.sizeof_ffi_type)).2 0
            else td.ffiElems } := by
  unfold poly_ffi
  rw [RTS.bind_some (a := PolyWord.int (54 : Nat)) (u := td) (by simp [Handle.Word, hcode]),
    RTS.bind_some (get_C_unsigned_int 54 (by norm_num) td)]
  simp only [show ¬ (54 : Nat) = 50 by decide, show ¬ (54 : Nat) = 51 by decide,
    show ¬ (54 : Nat) = 52 by decide, show ¬ (54 : Nat) = 53 by decide, if_false, if_true]
  rw [RTS.bind_some (a := PolyWord.tuple4 (PolyWord.int size) (PolyWord.int align)
      (PolyWord.int type) list) (u := td) (by simp [Handle.Word, hargs])]
  simp only [PolyWord.Get]
  rw [RTS.bind_some (getPolyUnsigned_int pf size hsize td),
    RTS.bind_some (get_C_ushort_int align halign td),
    RTS.bind_some (get_C_ushort_int type htype td), if_neg hcalloc]
  by_cases hn : countElems list % 2 ^ 32 = 0
  · simp only [hn, ne_eq, not_true_eq_false, if_false]
    rfl
  · have hne : pf.calloc 1 (ffiTypeSpace pf (countElems list % 2 ^ 32)) + pf.sizeof_ffi_type ≠ 0 := by
      omega
    simp only [ne_eq, hn, not_false_eq_true, if_true, hne]
    rfl

theorem armed_Word_code (td : TaskData) (code arg : PolyWord) :
    (armed td code arg).saveVec.Word (Handle.slot td.depth) = code := by
  simp [armed, TaskData.push, SaveVec.push, SaveVec.Word, TaskData.depth, Function.update_apply]

theorem armed_Word_arg (td : TaskData) (code arg : PolyWord) :
    (armed td code arg).saveVec.Word (Handle.slot (td.depth + 1)) = arg := by
  simp [armed, TaskData.push, SaveVec.push, SaveVec.Word, TaskData.depth]

theorem callFFI_53 (pf : Platform) (d : Nat) (td : TaskData) :
    ∃ td1, callFFI pf 53 (sysword d) td =
        (some (PolyWord.tuple4 (PolyWord.int (td.ffiTypes d).size)
          (PolyWord.int (td.ffiTypes d).alignment) (PolyWord.int (td.ffiTypes d).type)
          (sysword (td.ffiTypes d).elements)), td1) ∧
      td1.ffiTypes = td.ffiTypes ∧ td1.ffiElems = td.ffiElems ∧
      td1.exception = td.exception := by
  obtain ⟨h, td1, h1, h2, h3, h4, h5⟩ :=
    poly_ffi_53 pf (Handle.slot (td.depth + 1)) (Handle.slot td.depth)
      (armed td (TAGGED (53 : Nat)) (sysword d)) (armed_Word_code td _ _)
  rw [armed_Word_arg] at h2
  refine ⟨td1, ?_, h3, h4, h5⟩
  unfold callFFI
  rw [h1]
  simp only [h2]
  rfl

theorem callFFI_54 (pf : Platform) (td : TaskData) (size align type : Nat)
    (ws : List PolyWord)
    (hsize : size < 2 ^ pf.wordBits) (halign : align < 2 ^ 16) (htype : type < 2 ^ 16)
    (hN : ws.length + 1 < 2 ^ 32)
    (hcalloc : pf.calloc 1 (ffiTypeSpace pf ws.length) ≠ 0) :
    ∃ td1, callFFI pf 54 (PolyWord.tuple4 (PolyWord.int size) (PolyWord.int align)
          (PolyWord.int type) (mlList ws)) td =
        (some (sysword (pf.calloc 1 (ffiTypeSpace pf ws.length))), td1) ∧
      td1.ffiTypes = Function.update td.ffiTypes (pf.calloc 1 (ffiTypeSpace pf ws.length))
        { size := size % 2 ^ (8 * pf.sizeof_size_t), alignment := align, type := type,
          elements :=
            if ws.length ≠ 0 then
              pf.calloc 1 (ffiTypeSpace pf ws.length) + pf.sizeof_ffi_type
            else 0 } ∧
      td1.ffiElems =
        (if ws.length ≠ 0 then
          Function.update
            (storeElems pf.sizeof_size_t (mlList ws) td.ffiElems
              (pf.calloc 1 (ffiTypeSpace pf ws.length) + pf.sizeof_ffi_type)).1
            (storeElems pf.sizeof_size_t (mlList ws) td.ffiElems
              (pf.calloc 1 (ffiTypeSpace pf ws.length) + pf.sizeof_ffi_type)).2 0
        else td.ffiElems) ∧
      td1.exception = td.exception := by
  have hcount : countElems (mlList ws) % 2 ^ 32 = ws.length := by
    rw [countElems_mlList]
    exact Nat.mod_eq_of_lt (by omega)
  have h := poly_ffi_54 pf (Handle.slot (td.depth + 1)) (Handle.slot td.depth)
    (armed td (TAGGED (54 : Nat)) (PolyWord.tuple4 (PolyWord.int size) (PolyWord.int align)
      (PolyWord.int type) (mlList ws))) size align type (mlList ws)
    (armed_Word_code td _ _) (armed_Word_arg td _ _) hsize halign htype
    (by rw [hcount]; exact hcalloc)
  rw [hcount] at h
  refine ⟨(poly_ffi pf (Handle.slot (td.depth + 1)) (Handle.slot td.depth)
    (armed td (TAGGED (54 : Nat)) (PolyWord.tuple4 (PolyWord.int size) (PolyWord.int align)
      (PolyWord.int type) (mlList ws)))).2, ?_, ?_, ?_, ?_⟩
  · unfold callFFI
    rw [h]
    simp [toSysWord, Make_sysword, push, SaveVec.push, SaveVec.Word, sysword]
  · rw [h]; rfl
  · rw [h]; rfl
  · rw [h]; rfl

theorem stored_holdsElements (ptrSize : Nat) (hps : 0 < ptrSize) (ws : List PolyWord)
    (mem : Nat → Nat) (elem : Nat) (helem : elem ≠ 0) :
    holdsElements ptrSize
      (Function.update (storeElems ptrSize (mlList ws) mem elem).1
        (storeElems ptrSize (mlList ws) mem elem).2 0)
      elem (ws.map PolyWord.word0) := by
  obtain ⟨h1, _, h3⟩ := storeElems_mlList ptrSize ws mem elem
  refine ⟨helem, ?_, ?_⟩
  · intro i hi
    have hi2 : i < ws.length := by simpa using hi
    have hlt : i * ptrSize < ws.length * ptrSize := Nat.mul_lt_mul_of_pos_right hi2 hps
    rw [h1, Function.update_noteq (by omega), h3 hps i hi2, List.getElem_map]
  · rw [h1, List.length_map, Function.update_same]

/-- C6, as the code has it: for a list of `N ≥ 1` elements (with `N + 1` in the
range of the `unsigned` counter) the descriptor built by opcode 54 points to an
element array that holds exactly the `N` given descriptors in order followed
by a null terminator; for the empty list no array is made, the `elements`
pointer of the descriptor is null and the element memory is left as it was. -/
theorem buildCompound_element_array (pf : Platform) (td : TaskData)
    (size align type : Nat) (ws : List PolyWord)
    (hps : 0 < pf.sizeof_size_t)
    (hsize : size < 2 ^ pf.wordBits) (halign : align < 2 ^ 16) (htype : type < 2 ^ 16)
    (hN : ws.length + 1 < 2 ^ 32)
    (hcalloc : pf.calloc 1 (ffiTypeSpace pf ws.length) ≠ 0) :
    ∃ td1, callFFI pf 54 (PolyWord.tuple4 (PolyWord.int size) (PolyWord.int align)
          (PolyWord.int type) (mlList ws)) td =
        (some (sysword (pf.calloc 1 (ffiTypeSpace pf ws.length))), td1) ∧
      (ws ≠ [] →
        (td1.ffiTypes (pf.calloc 1 (ffiTypeSpace pf ws.length))).elements =
          pf.calloc 1 (ffiTypeSpace pf ws.length) + pf.sizeof_ffi_type ∧
        holdsElements pf.sizeof_size_t td1.ffiElems
          (td1.ffiTypes (pf.calloc 1 (ffiTypeSpace pf ws.length))).elements
          (ws.map PolyWord.word0)) ∧
      (ws = [] →
        (td1.ffiTypes (pf.calloc 1 (ffiTypeSpace pf ws.length))).elements = 0 ∧
        td1.ffiElems = td.ffiElems) := by
  obtain ⟨td1, h1, h2, h3, _⟩ := callFFI_54 pf td size align type ws hsize halign htype hN hcalloc
  refine ⟨td1, h1, fun hne => ?_, fun he => ?_⟩
  · have hlen : ws.length ≠ 0 := fun h => hne (List.length_eq_zero.mp h)
    have helems : (td1.ffiTypes (pf.calloc 1 (ffiTypeSpace pf ws.length))).elements =
        pf.calloc 1 (ffiTypeSpace pf ws.length) + pf.sizeof_ffi_type := by
      rw [h2, Function.update_same]
      simp only [ne_eq, hlen, not_false_eq_true, if_true]
    refine ⟨helems, ?_⟩
    rw [helems, h3, if_pos hlen]
    exact stored_holdsElements _ hps ws _ _ (by omega)
  · have hlen : ws.length = 0 := by rw [he]; rfl
    refine ⟨?_, ?_⟩
    · rw [h2, Function.update_same]
      simp only [ne_eq, hlen, not_true_eq_false, if_false]
    · rw [h3]
      simp only [ne_eq, hlen, not_true_eq_false, if_false]

/-- C6, as stated, fails for the empty list: on the 64-bit platform the
descriptor built from no elements is made, the space asked of `calloc` is that
of the header alone, and its `elements` pointer is null, so that there is no
element array and no terminator. -/
theorem buildCompound_empty_list_has_no_terminator :
    (callFFI linux64 54 (PolyWord.tuple4 (PolyWord.int 16) (PolyWord.int 8) (PolyWord.int 13)
      (mlList [])) emptyTask).1 = some (sysword 65536) ∧
    ffiTypeSpace linux64 0 = linux64.sizeof_ffi_type ∧
    ¬ holdsElements linux64.sizeof_size_t
      (callFFI linux64 54 (PolyWord.tuple4 (PolyWord.int 16) (PolyWord.int 8) (PolyWord.int 13)
        (mlList [])) emptyTask).2.ffiElems
      ((callFFI linux64 54 (PolyWord.tuple4 (PolyWord.int 16) (PolyWord.int 8)
        (PolyWord.int 13) (mlList [])) emptyTask).2.ffiTypes 65536).elements
      [] := by
  refine ⟨by decide, by decide, fun h => h.1 ?_⟩
  decide

theorem readElements_ne_zero (ptrSize : Nat) (mem : Nat → Nat) :
    ∀ (fuel p : Nat) (es : List Nat), readElements ptrSize mem fuel p = some es →
      ∀ e ∈ es, e ≠ 0 := by
  intro fuel
  induction fuel with
  | zero => intro p es h; simp [readElements] at h
  | succ n ih =>
    intro p es h
    unfold readElements at h
    by_cases h0 : mem p = 0
    · rw [if_pos h0] at h
      cases h
      intro e he
      cases he
    · rw [if_neg h0] at h
      rcases hrest : readElements ptrSize mem n (p + ptrSize) with _ | rest
      · rw [hrest] at h; cases h
      · rw [hrest] at h
        cases h
        intro e he
        rcases List.mem_cons.mp he with rfl | he
        · exact h0
        · exact ih _ _ hrest e he

theorem readElements_of_holds (ptrSize : Nat) (mem : Nat → Nat) :
    ∀ (es : List Nat) (p : Nat),
      (∀ i (h : i < es.length), mem (p + i * ptrSize) = es[i]) →
      mem (p + es.length * ptrSize) = 0 → (∀ e ∈ es, e ≠ 0) →
      readElements ptrSize mem (es.length + 1) p = some es := by
  intro es
  induction es with
  | nil =>
    intro p _ hterm _
    have : mem p = 0 := by simpa using hterm
    simp [readElements, this]
  | cons e rest ih =>
    intro p hcells hterm hne
    have h0 : mem p = e := by simpa using hcells 0 (by simp)
    have hrest := ih (p + ptrSize)
      (fun i hi => by
        have := hcells (i + 1) (by simpa using hi)
        rw [show p + ptrSize + i * ptrSize = p + (i + 1) * ptrSize by ring, this]
        rfl)
      (by
        rw [show p + ptrSize + rest.length * ptrSize = p + (rest.length + 1) * ptrSize by ring]
        simpa using hterm)
      (fun x hx => hne x (List.mem_cons_of_mem _ hx))
    have he : e ≠ 0 := hne e (List.mem_cons_self _ _)
    rw [List.length_cons]
    unfold readElements
    rw [h0, if_neg he, hrest]
    rfl

theorem elementsOf_ne_zero (ptrSize : Nat) (mem : Nat → Nat) (fuel p : Nat) (es : List Nat)
    (h : elementsOf ptrSize mem fuel p = some es) : ∀ e ∈ es, e ≠ 0 := by
  unfold elementsOf at h
  by_cases hp : p = 0
  · rw [if_pos hp] at h
    cases h
    intro e he
    cases he
  · rw [if_neg hp] at h
    exact readElements_ne_zero ptrSize mem fuel p es h

theorem map_word0_sysword (es : List Nat) :
    (es.map sysword).map PolyWord.word0 = es := by
  induction es with
  | nil => rfl
  | cons e rest ih => simp [sysword, PolyWord.word0, ih]

/-- C7: introspecting a descriptor `d` with opcode 53, building a descriptor
with opcode 54 from the size, alignment and kind words so obtained and the
list of the element descriptors of `d`, and introspecting the result, yields
the same size, alignment and kind words and the same sequence of element
descriptors, provided the fields of `d` are in the range of their C types, its
element array is terminated and `calloc` gives memory. -/
theorem introspect_build_round_trip (pf : Platform) (td : TaskData) (d fuel : Nat)
    (es : List Nat)
    (hps : 0 < pf.sizeof_size_t)
    (hsize : (td.ffiTypes d).size < 2 ^ pf.wordBits)
    (hsize_t : (td.ffiTypes d).size < 2 ^ (8 * pf.sizeof_size_t))
    (halign : (td.ffiTypes d).alignment < 2 ^ 16)
    (htype : (td.ffiTypes d).type < 2 ^ 16)
    (hes : elementsOf pf.sizeof_size_t td.ffiElems fuel (td.ffiTypes d).elements = some es)
    (hN : es.length + 1 < 2 ^ 32)
    (hcalloc : pf.calloc 1 (ffiTypeSpace pf es.length) ≠ 0) :
    ∃ size align type elems td1 r td2 elems2 td3,
      callFFI pf 53 (sysword d) td = (some (PolyWord.tuple4 size align type elems), td1) ∧
      size = PolyWord.int (td.ffiTypes d).size ∧
      align = PolyWord.int (td.ffiTypes d).alignment ∧
      type = PolyWord.int (td.ffiTypes d).type ∧
      elems = sysword (td.ffiTypes d).elements ∧
      elementsOf pf.sizeof_size_t td1.ffiElems fuel elems.word0 = some es ∧
      callFFI pf 54 (PolyWord.tuple4 size align type (mlList (es.map sysword))) td1
        = (some r, td2) ∧
      callFFI pf 53 r td2 = (some (PolyWord.tuple4 size align type elems2), td3) ∧
      elementsOf pf.sizeof_size_t td3.ffiElems (es.length + 1) elems2.word0 = some es := by
  obtain ⟨td1, h1, ht1, he1, _⟩ := callFFI_53 pf d td
  have hlen : (es.map sysword).length = es.length := List.length_map _ _
  obtain ⟨td2, h2, ht2, he2, _⟩ := callFFI_54 pf td1 (td.ffiTypes d).size
    (td.ffiTypes d).alignment (td.ffiTypes d).type (es.map sysword) hsize halign htype
    (by rw [hlen]; exact hN) (by rw [hlen]; exact hcalloc)
  rw [hlen] at h2 ht2 he2
  obtain ⟨td3, h3, _, he3, _⟩ := callFFI_53 pf (pf.calloc 1 (ffiTypeSpace pf es.length)) td2
  have hhdr : td2.ffiTypes (pf.calloc 1 (ffiTypeSpace pf es.length)) =
      { size := (td.ffiTypes d).size, alignment := (td.ffiTypes d).alignment,
        type := (td.ffiTypes d).type,
        elements := if es.length ≠ 0 then
            pf.calloc 1 (ffiTypeSpace pf es.length) + pf.sizeof_ffi_type
          else 0 } := by
    rw [ht2, Function.update_same, Nat.mod_eq_of_lt hsize_t]
  rw [hhdr] at h3
  refine ⟨_, _, _, _, td1, _, td2, _, td3, h1, rfl, rfl, rfl, rfl, ?_, h2, h3, ?_⟩
  · rw [he1]
    exact hes
  · rw [he3, he2]
    by_cases hz : es.length = 0
    · have : es = [] := List.length_eq_zero.mp hz
      subst this
      simp [elementsOf, sysword, PolyWord.word0]
    · have hp : pf.calloc 1 (ffiTypeSpace pf es.length) + pf.sizeof_ffi_type ≠ 0 := by omega
      have hholds := stored_holdsElements pf.sizeof_size_t hps (es.map sysword) td1.ffiElems
        (pf.calloc 1 (ffiTypeSpace pf es.length) + pf.sizeof_ffi_type) hp
      rw [map_word0_sysword] at hholds
      simp only [ne_eq, hz, not_false_eq_true, if_true, sysword, PolyWord.word0, elementsOf, hp,
        if_false]
      exact readElements_of_holds _ _ es _ hholds.2.1 hholds.2.2
        (elementsOf_ne_zero _ _ _ _ _ hes)

end Dispatcher

section EntryPoints

theorem char_toNat_inj {a b : Char} (h : a.toNat = b.toNat) : a = b := by
  have h1 := congrArg Char.ofNat h
  rwa [Char.ofNat_toNat, Char.ofNat_toNat] at h1

theorem char_toNat_eq_zero {a : Char} (h : a.toNat = 0) : a = NUL :=
  char_toNat_inj h

theorem cstr_no_NUL (s : CString) : ∀ c ∈ cstr s, c ≠ NUL := by
  intro c hc
  have := List.mem_takeWhile_imp hc
  simpa using this

theorem strcmpAux_eq_zero : ∀ (x y : CString), (∀ c ∈ x, c ≠ NUL) → (∀ c ∈ y, c ≠ NUL) →
    (strcmpAux x y = 0 ↔ x = y)
  | [], [], _, _ => by simp [strcmpAux]
  | [], b :: bs, _, hy => by
    have hb : b ≠ NUL := hy b (List.mem_cons_self _ _)
    have : b.toNat ≠ 0 := fun h => hb (char_toNat_eq_zero h)
    simp only [strcmpAux, neg_eq_zero, Nat.cast_eq_zero, this, false_iff]
    exact fun h => by cases h
  | a :: as, [], hx, _ => by
    have ha : a ≠ NUL := hx a (List.mem_cons_self _ _)
    have : a.toNat ≠ 0 := fun h => ha (char_toNat_eq_zero h)
    simp only [strcmpAux, Nat.cast_eq_zero, this, false_iff]
    exact fun h => by cases h
  | a :: as, b :: bs, hx, hy => by
    have ih := strcmpAux_eq_zero as bs (fun c hc => hx c (List.mem_cons_of_mem _ hc))
      (fun c hc => hy c (List.mem_cons_of_mem _ hc))
    by_cases hab : a = b
    · subst hab
      simp only [strcmpAux, if_true, ih, List.cons.injEq, true_and]
    · have hne : (a.toNat : Int) - (b.toNat : Int) ≠ 0 := by
        intro h
        exact hab (char_toNat_inj (by omega))
      simp only [strcmpAux, hab, if_false, hne, List.cons.injEq, false_and]

theorem strcmp_eq_zero (a b : CString) : strcmp a b = 0 ↔ cstr a = cstr b :=
  strcmpAux_eq_zero _ _ (cstr_no_NUL a) (cstr_no_NUL b)

theorem cstr_strcpy (dst src : CString) : cstr (strcpy dst src) = cstr src := by
  have key : ∀ (s rest : CString), cstr (cstr s ++ NUL :: rest) = cstr s := by
    intro s rest
    induction s with
    | nil => simp [cstr]
    | cons c t ih =>
      by_cases hc : c = NUL
      · subst hc
        simp [cstr]
      · have hc2 : (c != NUL) = true := by simpa using hc
        simp only [cstr, List.takeWhile_cons, hc2, if_true, List.cons_append, List.cons.injEq,
          true_and] at ih ⊢
        exact ih
  unfold strcpy
  rw [List.append_assoc]
  exact key src _

/-- The names of the table are plain: none holds a NUL character. -/
theorem entryPtNames_plain : ∀ n ∈ entryPtNames, cstr n.toList = n.toList := by
  decide

theorem findEntry_names (pf : Platform) (entryName : CString) (names : List String)
    (hfn : ∀ n ∈ names, pf.fnAddr n ≠ 0) :
    findEntry entryName
        (names.map (fun n => ({ name := some n, entry := pf.fnAddr n } : _entrypts))
          ++ [{ name := none, entry := 0 }])
      = (names.find? (fun n => decide (strcmp entryName n.toList = 0))).map pf.fnAddr := by
  induction names with
  | nil => simp [findEntry]
  | cons n rest ih =>
    have hn : pf.fnAddr n ≠ 0 := hfn n (List.mem_cons_self _ _)
    have ih2 := ih (fun m hm => hfn m (List.mem_cons_of_mem _ hm))
    rw [List.map_cons, List.cons_append, findEntry, if_neg hn, List.find?_cons]
    by_cases hs : strcmp entryName n.toList = 0
    · simp only [if_pos hs, decide_eq_true hs]
      rfl
    · simp only [if_neg hs, decide_eq_false hs]
      exact ih2

theorem findEntry_present (pf : Platform) (entryName : CString)
    (hfn : ∀ n ∈ entryPtNames, pf.fnAddr n ≠ 0) (n : String) (hn : n ∈ entryPtNames)
    (hname : cstr entryName = n.toList) :
    findEntry entryName (entryPtTable pf) = some (pf.fnAddr n) := by
  unfold entryPtTable
  rw [findEntry_names pf entryName entryPtNames hfn]
  have hmatch : ∀ m ∈ entryPtNames, strcmp entryName m.toList = 0 → m = n := by
    intro m hm h0
    rw [strcmp_eq_zero, entryPtNames_plain m hm, hname] at h0
    exact (String.ext h0).symm
  rcases hfind : entryPtNames.find? (fun n => decide (strcmp entryName n.toList = 0)) with _ | m
  · have := List.find?_eq_none.mp hfind n hn
    have h0 : strcmp entryName n.toList = 0 := by
      rw [strcmp_eq_zero, entryPtNames_plain n hn, hname]
    exact absurd (decide_eq_true h0) this
  · have hm := List.mem_of_find?_eq_some hfind
    have hp := List.find?_some hfind
    have : m = n := hmatch m hm (of_decide_eq_true hp)
    subst this
    rw [hfind]
    rfl

theorem findEntry_absent (pf : Platform) (entryName : CString)
    (hfn : ∀ n ∈ entryPtNames, pf.fnAddr n ≠ 0)
    (hname : ∀ n ∈ entryPtNames, cstr entryName ≠ n.toList) :
    findEntry entryName (entryPtTable pf) = none := by
  unfold entryPtTable
  rw [findEntry_names pf entryName entryPtNames hfn]
  have : entryPtNames.find? (fun n => decide (strcmp entryName n.toList = 0)) = none := by
    rw [List.find?_eq_none]
    intro m hm
    have h0 : ¬ strcmp entryName m.toList = 0 := by
      rw [strcmp_eq_zero, entryPtNames_plain m hm]
      exact hname m hm
    simpa using h0
  rw [this]
  rfl

theorem setEntryPoint_present (pf : Platform) (p : PolyObject)
    (hfn : ∀ n ∈ entryPtNames, pf.fnAddr n ≠ 0) (hlen : 1 < p.length)
    (n : String) (hn : n ∈ entryPtNames) (hname : cstr p.bytes = n.toList) :
    setEntryPoint pf p = (true, { p with word0 := pf.fnAddr n }) := by
  have h0 : ¬ p.length = 0 := by omega
  have h1 : ¬ p.length = 1 := by omega
  simp only [setEntryPoint, h0, h1, if_false, findEntry_present pf p.bytes hfn n hn hname]

theorem setEntryPoint_absent (pf : Platform) (p : PolyObject)
    (hfn : ∀ n ∈ entryPtNames, pf.fnAddr n ≠ 0) (hlen : 1 < p.length)
    (hname : ∀ n ∈ entryPtNames, cstr p.bytes ≠ n.toList) :
    setEntryPoint pf p = (false, { p with word0 := 0 }) := by
  have h0 : ¬ p.length = 0 := by omega
  have h1 : ¬ p.length = 1 := by omega
  simp only [setEntryPoint, h0, h1, if_false, findEntry_absent pf p.bytes hfn hname]

/-- C4: for a record that holds a stored name (length greater than one) and
whatever its address slot held before, `setEntryPoint` returns true and leaves
in the slot the function address of the table entry with that name, which is
not null, when the name is in the table; it returns false and leaves the slot
zero when no entry has the name.  Nothing else of the record changes. -/
theorem setEntryPoint_resolves_by_name (pf : Platform) (p : PolyObject)
    (hfn : ∀ n ∈ entryPtNames, pf.fnAddr n ≠ 0) (hlen : 1 < p.length) :
    (∀ n ∈ entryPtNames, cstr p.bytes = n.toList →
      setEntryPoint pf p = (true, { p with word0 := pf.fnAddr n }) ∧ pf.fnAddr n ≠ 0) ∧
    ((∀ n ∈ entryPtNames, cstr p.bytes ≠ n.toList) →
      setEntryPoint pf p = (false, { p with word0 := 0 })) := by
  exact ⟨fun n hn hname => ⟨setEntryPoint_present pf p hfn hlen n hn hname, hfn n hn⟩,
    fun hname => setEntryPoint_absent pf p hfn hlen hname⟩

theorem creatEntryPointObject_eval (pf : Platform) (td : TaskData) (entryH : Handle)
    (raw : CString)
    (hraw : pf.Poly_string_to_C_alloc (td.saveVec.Word entryH) = some raw) :
    creatEntryPointObject pf entryH td =
      (if (setEntryPoint pf ⟨entryPointSpace pf raw, 0,
            strcpy (List.replicate ((entryPointSpace pf raw - 1) * pf.sizeofPolyWord) NUL) raw⟩).1
          = true then
        (some (Handle.slot td.saveVec.save_vec_addr),
          { td with saveVec :=
            { save_vec := Function.update td.saveVec.save_vec td.saveVec.save_vec_addr
                (PolyWord.obj (setEntryPoint pf ⟨entryPointSpace pf raw, 0,
                  strcpy (List.replicate ((entryPointSpace pf raw - 1) * pf.sizeofPolyWord) NUL)
                    raw⟩).2),
              save_vec_addr := td.saveVec.save_vec_addr + 1 } })
      else
        (none,
          { td with
            saveVec :=
              { save_vec := Function.update td.saveVec.save_vec td.saveVec.save_vec_addr
                  (PolyWord.obj (setEntryPoint pf ⟨entryPointSpace pf raw, 0,
                    strcpy (List.replicate ((entryPointSpace pf raw - 1) * pf.sizeofPolyWord) NUL)
                      raw⟩).2),
                save_vec_addr := td.saveVec.save_vec_addr + 1 },
            exception := some ⟨ExnId.EXC_Fail, "entry point not found".toList, 0⟩ })) := by
  unfold creatEntryPointObject
  rw [RTS.bind_some (m := entryH.Word) (a := td.saveVec.Word entryH) (u := td) rfl]
  simp only [hraw]
  simp only [RTS.bind_apply, alloc_and_save_bytes, push, SaveVec.push, Handle.modifyObj,
    setEntryPointAt, Handle.Word, SaveVec.Word, Function.update_same, Function.update_idem,
    PolyWord.AsObjPtr, RTS.pure_apply]
  split_ifs with h1
  · rw [h1]
    rfl
  · rw [Bool.not_eq_true] at h1
    rw [h1]
    rfl

theorem entryPointSpace_gt_one (pf : Platform) (hW : 0 < pf.sizeofPolyWord) (raw : CString) :
    1 < entryPointSpace pf raw := by
  unfold entryPointSpace
  have : 0 < (strlen raw + 1 + pf.sizeofPolyWord - 1) / pf.sizeofPolyWord :=
    Nat.div_pos (by omega) hW
  omega

/-- C3: for the name `creatEntryPointObject` reads from its argument, the call
returns a record whose address slot holds the function address of the table
entry with exactly that name, which is not null, if the table has such an
entry, and raises `Fail` with the message `entry point not found` if no table
entry has that name. -/
theorem creatEntryPointObject_by_name (pf : Platform) (td : TaskData) (entryH : Handle)
    (raw : CString) (hW : 0 < pf.sizeofPolyWord)
    (hfn : ∀ n ∈ entryPtNames, pf.fnAddr n ≠ 0)
    (hraw : pf.Poly_string_to_C_alloc (td.saveVec.Word entryH) = some raw) :
    (∀ n ∈ entryPtNames, cstr raw = n.toList →
      ∃ h td1 p, creatEntryPointObject pf entryH td = (some h, td1) ∧
        td1.saveVec.Word h = PolyWord.obj p ∧ p.word0 = pf.fnAddr n ∧ p.word0 ≠ 0) ∧
    ((∀ n ∈ entryPtNames, cstr raw ≠ n.toList) →
      ∃ td1, creatEntryPointObject pf entryH td = (none, td1) ∧
        td1.exception = some ⟨ExnId.EXC_Fail, "entry point not found".toList, 0⟩) := by
  have hlen := entryPointSpace_gt_one pf hW raw
  refine ⟨fun n hn hname => ?_, fun hname => ?_⟩
  · have hset := setEntryPoint_present pf ⟨entryPointSpace pf raw, 0,
      strcpy (List.replicate ((entryPointSpace pf raw - 1) * pf.sizeofPolyWord) NUL) raw⟩
      hfn hlen n hn (by rw [cstr_strcpy]; exact hname)
    rw [creatEntryPointObject_eval pf td entryH raw hraw, hset]
    refine ⟨_, _, ⟨entryPointSpace pf raw, pf.fnAddr n,
      strcpy (List.replicate ((entryPointSpace pf raw - 1) * pf.sizeofPolyWord) NUL) raw⟩,
      rfl, ?_, rfl, hfn n hn⟩
    simp [SaveVec.Word]
  · have hset := setEntryPoint_absent pf ⟨entryPointSpace pf raw, 0,
      strcpy (List.replicate ((entryPointSpace pf raw - 1) * pf.sizeofPolyWord) NUL) raw⟩
      hfn hlen (by intro n hn; rw [cstr_strcpy]; exact hname n hn)
    rw [creatEntryPointObject_eval pf td entryH raw hraw, hset]
    exact ⟨_, rfl, rfl⟩

theorem findEntry_no_match (entryName : CString) :
    ∀ table : List _entrypts,
      (∀ e ∈ table, ∀ m, e.name = some m → strcmp entryName m.toList ≠ 0) →
      findEntry entryName table = none := by
  intro table
  induction table with
  | nil => intro _; rfl
  | cons e rest ih =>
    intro h
    have hrest := ih (fun x hx => h x (List.mem_cons_of_mem _ hx))
    unfold findEntry
    by_cases h0 : e.entry = 0
    · rw [if_pos h0]
    · rw [if_neg h0]
      rcases hname : e.name with _ | m
      · exact hrest
      · have hne := h e (List.mem_cons_self _ _) m hname
        simp only [if_neg hne]
        exact hrest

theorem polyFFIEPTNames_not_in_entryPtNames : ∀ n ∈ polyFFIEPTNames, n ∉ entryPtNames := by
  decide

theorem entryPtTable_names (pf : Platform) :
    ∀ e ∈ entryPtTable pf, ∀ m, e.name = some m → m ∈ entryPtNames := by
  intro e he m hm
  unfold entryPtTable at he
  rcases List.mem_append.mp he with h | h
  · obtain ⟨n, hn, rfl⟩ := List.mem_map.mp h
    simp only [Option.some.injEq] at hm
    exact hm ▸ hn
  · simp only [List.mem_singleton] at h
    subst h
    cases hm

/-- C11, on the code: a record whose stored name is one of the names listed in
`polyFFIEPT` is not resolved: `setEntryPoint`, which scans `entryPtTable` alone,
returns false and leaves the address slot zero, although `polyFFIEPT` holds an
entry of that name with the address of the function. -/
theorem setEntryPoint_misses_polyFFIEPT (pf : Platform) (p : PolyObject) (n : String)
    (hlen : 1 < p.length) (hn : n ∈ polyFFIEPTNames) (hname : cstr p.bytes = n.toList) :
    ({ name := some n, entry := pf.fnAddr n } : _entrypts) ∈ polyFFIEPT pf ∧
    setEntryPoint pf p = (false, { p with word0 := 0 }) := by
  refine ⟨?_, ?_⟩
  · unfold polyFFIEPT
    exact List.mem_append_left _ (List.mem_map.mpr ⟨n, hn, rfl⟩)
  · have h0 : ¬ p.length = 0 := by omega
    have h1 : ¬ p.length = 1 := by omega
    have hfind : findEntry p.bytes (entryPtTable pf) = none := by
      apply findEntry_no_match
      intro e he m hm h
      have hmem := entryPtTable_names pf e he m hm
      rw [strcmp_eq_zero, entryPtNames_plain m hmem, hname] at h
      have : n = m := String.ext h
      exact polyFFIEPTNames_not_in_entryPtNames n hn (this ▸ hmem)
    simp only [setEntryPoint, h0, h1, if_false, hfind]

theorem setEntryPoint_bytes (pf : Platform) (p : PolyObject) :
    (setEntryPoint pf p).2.bytes = p.bytes ∧ (setEntryPoint pf p).2.length = p.length := by
  unfold setEntryPoint
  by_cases h0 : p.length = 0
  · simp only [h0, if_true, and_self]
  · by_cases h1 : p.length = 1
    · rw [if_neg h0, if_pos h1]
      exact ⟨rfl, rfl⟩
    · rcases hfind : findEntry p.bytes (entryPtTable pf) with _ | entry
      · simp only [h0, h1, if_false, hfind, and_self]
      · simp only [h0, h1, if_false, hfind, and_self]

/-- C12: `setEntryPoint` is idempotent: for a record of any length and any
content of its slot, applying it to the record it leaves gives the same record
and the same flag again; and it never changes the stored name bytes nor the
length of the record. -/
theorem setEntryPoint_idempotent (pf : Platform) (p : PolyObject) :
    setEntryPoint pf (setEntryPoint pf p).2 = setEntryPoint pf p ∧
    (setEntryPoint pf p).2.bytes = p.bytes ∧
    (setEntryPoint pf p).2.length = p.length := by
  refine ⟨?_, (setEntryPoint_bytes pf p).1, (setEntryPoint_bytes pf p).2⟩
  by_cases h0 : p.length = 0
  · have h : setEntryPoint pf p = (false, p) := by
      unfold setEntryPoint
      rw [if_pos h0]
    rw [h]
    exact h
  · by_cases h1 : p.length = 1
    · have h : ∀ q : PolyObject, q.length = 1 →
          setEntryPoint pf q = (false, { q with word0 := 0 }) := by
        intro q hq
        unfold setEntryPoint
        rw [if_neg (by omega), if_pos hq]
      rw [h p h1]
      exact h _ h1
    · rcases hfind : findEntry p.bytes (entryPtTable pf) with _ | entry
      · have h : ∀ q : PolyObject, q.length = p.length → q.bytes = p.bytes →
            setEntryPoint pf q = (false, { q with word0 := 0 }) := by
          intro q hq hb
          unfold setEntryPoint
          rw [if_neg (hq ▸ h0), if_neg (fun h => h1 (hq ▸ h))]
          simp only [hb, hfind]
        rw [h p rfl rfl]
        exact h _ rfl rfl
      · have h : ∀ q : PolyObject, q.length = p.length → q.bytes = p.bytes →
            setEntryPoint pf q = (true, { q with word0 := entry }) := by
          intro q hq hb
          unfold setEntryPoint
          rw [if_neg (hq ▸ h0), if_neg (fun h => h1 (hq ▸ h))]
          simp only [hb, hfind]
        rw [h p rfl rfl]
        exact h _ rfl rfl

theorem created_record (pf : Platform) (td : TaskData) (entryH : Handle) (raw : CString)
    (hraw : pf.Poly_string_to_C_alloc (td.saveVec.Word entryH) = some raw) :
    (creatEntryPointObject pf entryH td).2.saveVec.save_vec td.saveVec.save_vec_addr =
        PolyWord.obj (setEntryPoint pf ⟨entryPointSpace pf raw, 0,
          strcpy (List.replicate ((entryPointSpace pf raw - 1) * pf.sizeofPolyWord) NUL) raw⟩).2 ∧
    ∀ h td1, creatEntryPointObject pf entryH td = (some h, td1) →
      h = Handle.slot td.saveVec.save_vec_addr ∧
      td1.saveVec.save_vec td.saveVec.save_vec_addr =
        PolyWord.obj (setEntryPoint pf ⟨entryPointSpace pf raw, 0,
          strcpy (List.replicate ((entryPointSpace pf raw - 1) * pf.sizeofPolyWord) NUL) raw⟩).2 := by
  rw [creatEntryPointObject_eval pf td entryH raw hraw]
  split_ifs with hok
  · refine ⟨by simp, fun h td1 heq => ?_⟩
    simp only [Prod.mk.injEq, Option.some.injEq] at heq
    obtain ⟨rfl, rfl⟩ := heq
    exact ⟨rfl, by simp⟩
  · refine ⟨by simp, fun h td1 heq => ?_⟩
    simp at heq

theorem entryPointSpace_bounds (pf : Platform) (hW : 0 < pf.sizeofPolyWord) (raw : CString) :
    strlen raw + 1 ≤ (entryPointSpace pf raw - 1) * pf.sizeofPolyWord ∧
    (entryPointSpace pf raw - 1) * pf.sizeofPolyWord < strlen raw + 1 + pf.sizeofPolyWord := by
  unfold entryPointSpace
  have h1 := Nat.div_add_mod (strlen raw + 1 + pf.sizeofPolyWord - 1) pf.sizeofPolyWord
  have h2 := Nat.mod_lt (strlen raw + 1 + pf.sizeofPolyWord - 1) hW
  rw [Nat.add_sub_cancel_left, Nat.mul_comm]
  generalize (strlen raw + 1 + pf.sizeofPolyWord - 1) % pf.sizeofPolyWord = r at h1 h2
  generalize pf.sizeofPolyWord * ((strlen raw + 1 + pf.sizeofPolyWord - 1) / pf.sizeofPolyWord)
    = m at h1 ⊢
  omega

theorem strcpy_length (dst src : CString) (h : strlen src + 1 ≤ dst.length) :
    (strcpy dst src).length = dst.length := by
  unfold strcpy
  rw [List.length_append, List.length_append, List.length_drop]
  unfold strlen at h ⊢
  simp only [List.length_singleton]
  omega

/-- C13: when `creatEntryPointObject` accepts a name, the record it returns
stores the name and a NUL terminator right after the address slot, and
`getEntryPointName` of the record is exactly that name, never the null
result; and for every name, however short, the record made has a length
greater than one. -/
theorem getEntryPointName_of_created_record (pf : Platform) (td : TaskData)
    (entryH : Handle) (raw : CString) (hW : 0 < pf.sizeofPolyWord)
    (hraw : pf.Poly_string_to_C_alloc (td.saveVec.Word entryH) = some raw) :
    1 < entryPointSpace pf raw ∧
    ∀ h td1, creatEntryPointObject pf entryH td = (some h, td1) →
      ∃ p, td1.saveVec.Word h = PolyWord.obj p ∧ p.length = entryPointSpace pf raw ∧
        1 < p.length ∧ (∃ rest, p.bytes = cstr raw ++ NUL :: rest) ∧
        getEntryPointName p = some (cstr raw) := by
  have hlen := entryPointSpace_gt_one pf hW raw
  refine ⟨hlen, fun h td1 heq => ?_⟩
  obtain ⟨rfl, hword⟩ := (created_record pf td entryH raw hraw).2 h td1 heq
  obtain ⟨hb, hl⟩ := setEntryPoint_bytes pf ⟨entryPointSpace pf raw, 0,
    strcpy (List.replicate ((entryPointSpace pf raw - 1) * pf.sizeofPolyWord) NUL) raw⟩
  refine ⟨_, hword, hl, by rw [hl]; exact hlen,
    ⟨(List.replicate ((entryPointSpace pf raw - 1) * pf.sizeofPolyWord) NUL).drop
      (strlen raw + 1), ?_⟩, ?_⟩
  · rw [hb]
    exact List.append_assoc _ _ _
  · unfold getEntryPointName
    rw [hl, if_neg (by simp only [not_le]; exact hlen), hb]
    simp only [cstr_strcpy]

/-- C14: the record size `1 + (L + 1 + W - 1) / W` computed by
`creatEntryPointObject` for a name of length `L` and word size `W` leaves at
least `L + 1` and fewer than `L + 1 + W` bytes after the address slot, so that
`strcpy` of the name with its terminator stays inside the record: the bytes
of the record the call makes are as many as its length gives. -/
theorem entryPointSpace_holds_name (pf : Platform) (td : TaskData) (entryH : Handle)
    (raw : CString) (hW : 0 < pf.sizeofPolyWord)
    (hraw : pf.Poly_string_to_C_alloc (td.saveVec.Word entryH) = some raw) :
    entryPointSpace pf raw = 1 + (strlen raw + 1 + pf.sizeofPolyWord - 1) / pf.sizeofPolyWord ∧
    strlen raw + 1 ≤ (entryPointSpace pf raw - 1) * pf.sizeofPolyWord ∧
    (entryPointSpace pf raw - 1) * pf.sizeofPolyWord < strlen raw + 1 + pf.sizeofPolyWord ∧
    ∃ p, (creatEntryPointObject pf entryH td).2.saveVec.save_vec td.saveVec.save_vec_addr
        = PolyWord.obj p ∧
      p.length = entryPointSpace pf raw ∧
      p.bytes.length = (p.length - 1) * pf.sizeofPolyWord := by
  obtain ⟨hlo, hhi⟩ := entryPointSpace_bounds pf hW raw
  obtain ⟨hb, hl⟩ := setEntryPoint_bytes pf ⟨entryPointSpace pf raw, 0,
    strcpy (List.replicate ((entryPointSpace pf raw - 1) * pf.sizeofPolyWord) NUL) raw⟩
  refine ⟨rfl, hlo, hhi, _, (created_record pf td entryH raw hraw).1, hl, ?_⟩
  rw [hb, hl]
  simp only []
  rw [strcpy_length _ _ (by rw [List.length_replicate]; exact hlo), List.length_replicate]

end EntryPoints

section ErrorSlot

theorem toSigned_of_range (b : Nat) (hb : 1 ≤ b) (e : Int)
    (h1 : -(2 : Int) ^ (b - 1) ≤ e) (h2 : e < (2 : Int) ^ (b - 1)) : toSigned b e = e := by
  have hpow : (2 : Int) ^ b = 2 * (2 : Int) ^ (b - 1) := by
    conv_lhs => rw [show b = (b - 1) + 1 by omega]
    rw [pow_succ]
    ring
  have hP : (0 : Int) < (2 : Int) ^ (b - 1) := by positivity
  unfold toSigned
  rw [hpow]
  generalize (2 : Int) ^ (b - 1) = P at *
  by_cases he : 0 ≤ e
  · have hm : e % (2 * P) = e := Int.emod_eq_of_lt he (by omega)
    rw [hm, if_pos h2]
  · have hm : e % (2 * P) = e + 2 * P := by
      have h3 : (e + 2 * P) % (2 * P) = e % (2 * P) := Int.add_emod_self
      rw [← h3]
      exact Int.emod_eq_of_lt (by omega) (by omega)
    rw [hm, if_neg (by omega)]
    ring

theorem toSigned_toNat_emod (b : Nat) (e : Int) :
    toSigned b (((e % 2 ^ b).toNat : Nat) : Int) = toSigned b e := by
  have hP : (0 : Int) < (2 : Int) ^ b := by positivity
  have h0 : 0 ≤ e % 2 ^ b := Int.emod_nonneg _ (by omega)
  rw [Int.toNat_of_nonneg h0]
  unfold toSigned
  rw [Int.emod_emod_of_dvd _ (dvd_refl _)]

theorem pow_le_wordBits (pf : Platform) (hW : 4 ≤ pf.sizeofPolyWord) :
    (2 : Int) ^ 31 ≤ (2 : Int) ^ (pf.wordBits - 1) :=
  pow_le_pow_right₀ (by norm_num) (by unfold Platform.wordBits; omega)

/-- C10: `PolyFFIGetError` into a cell followed by `PolyFFISetError` from that
cell leaves the error slot with the value it had at the capture, for every
`int` value of `errno`, negative ones included, and for every 32-bit value of
the Windows last-error code, on a platform whose machine word has at least 32
bits; with no change to the slot in between, the error slots are as before. -/
theorem get_error_then_set_error_restores (pf : Platform) (te : ThreadError)
    (cell : PolyObject) (hW : 4 ≤ pf.sizeofPolyWord)
    (herrno : -(2 : Int) ^ 31 ≤ te.errno ∧ te.errno < (2 : Int) ^ 31)
    (hlast : te.lastError < 2 ^ 32) :
    (pf.win32 = false → ∀ te2,
      (PolyFFISetError pf (PolyFFIGetError pf te cell).2 te2).2.errno = te.errno) ∧
    (pf.win32 = true → ∀ te2,
      (PolyFFISetError pf (PolyFFIGetError pf te cell).2 te2).2.lastError = te.lastError) ∧
    (PolyFFISetError pf (PolyFFIGetError pf te cell).2 te).2 = te := by
  have hbits : 1 ≤ pf.wordBits := by unfold Platform.wordBits; omega
  have hp := pow_le_wordBits pf hW
  have hposix : toSigned 32 (AsSigned pf (FromUnsigned pf te.errno)) = te.errno := by
    unfold AsSigned FromUnsigned
    rw [toSigned_toNat_emod, toSigned_of_range pf.wordBits hbits te.errno (by omega) (by omega)]
    exact toSigned_of_range 32 (by norm_num) te.errno (by norm_num; omega) (by norm_num; omega)
  have hwin : FromUnsigned pf (te.lastError : Int) % 2 ^ pf.wordBits % 2 ^ 32 = te.lastError := by
    have h32 : (2 : Nat) ^ 32 ≤ 2 ^ pf.wordBits :=
      Nat.pow_le_pow_right (by norm_num) (by unfold Platform.wordBits; omega)
    have hlt : te.lastError < 2 ^ pf.wordBits := by omega
    have h1 : FromUnsigned pf (te.lastError : Int) = te.lastError := by
      unfold FromUnsigned
      rw [Int.emod_eq_of_lt (Int.natCast_nonneg _) (by exact_mod_cast hlt)]
      rfl
    rw [h1, Nat.mod_eq_of_lt hlt, Nat.mod_eq_of_lt hlast]
  refine ⟨fun hw te2 => ?_, fun hw te2 => ?_, ?_⟩
  · simp only [PolyFFISetError, PolyFFIGetError, hw, Bool.false_eq_true, if_false, hposix]
  · simp only [PolyFFISetError, PolyFFIGetError, hw, if_true, hwin]
  · cases hw : pf.win32
    · simp only [PolyFFISetError, PolyFFIGetError, hw, Bool.false_eq_true, if_false, hposix]
    · simp only [PolyFFISetError, PolyFFIGetError, hw, if_true, hwin]

end ErrorSlot

section Loader

theorem take_contains (l1 p rest : CString) (k : Nat) :
    p.take k <:+: (l1 ++ p ++ rest).take (l1.length + k) := by
  refine ⟨l1, rest.take (k - p.length), ?_⟩
  rw [List.append_assoc l1 p rest, List.take_append, List.take_append_eq_append_take,
    List.append_assoc]

theorem PolyFFILoadLibrary_failure (pf : Platform)
    (arg : PolyWord) (td : TaskData) (path : CString)
    (hpath : pf.Poly_string_to_C_alloc arg = some path)
    (hwin : pf.win32 = true → pf.LoadLibrary (some path) = 0)
    (hposix : pf.win32 = false → pf.dlopen (some path) = 0) :
    PolyFFILoadLibrary pf arg td =
      (TAGGED 0, pf.PostRTSCall { pf.PreRTSCall td with
        exception := some ⟨ExnId.EXC_foreign,
          snprintf 256 ("Loading <".toList ++ cstr path ++
            (if pf.win32 then "> failed. Error ".toList ++ fmt_lu pf.GetLastError
             else "> failed: ".toList ++ cstr pf.dlerror)), 0⟩ }) := by
  cases hw : pf.win32
  · have h0 := hposix hw
    simp only [PolyFFILoadLibrary, hpath, hw, Bool.false_eq_true, if_false, h0, if_true,
      tryCatch, raise_exception_string, finishCall, fmt_s, SaveVec.reset, SaveVec.mark,
      List.append_assoc]
  · have h0 := hwin hw
    simp only [PolyFFILoadLibrary, hpath, hw, if_true, h0, tryCatch, raise_exception_string,
      finishCall, fmt_s, SaveVec.reset, SaveVec.mark, List.append_assoc]

/-- C9, as the code has it: when the platform loader fails to load the
requested path, `PolyFFILoadLibrary` returns `TAGGED(0)` and leaves pending a
`Foreign` exception whose message is the text `Loading <path> failed...` cut to
the 255 characters that fit the buffer: the message always contains the first
246 characters of the path, and the complete path when the path has at most 246
characters; `PostRTSCall`, which is not among the sources, is taken to leave
the pending exception alone. -/
theorem PolyFFILoadLibrary_failure_message (pf : Platform)
    (hpost : ∀ td, (pf.PostRTSCall td).exception = td.exception)
    (arg : PolyWord) (td : TaskData) (path : CString)
    (hpath : pf.Poly_string_to_C_alloc arg = some path)
    (hwin : pf.win32 = true → pf.LoadLibrary (some path) = 0)
    (hposix : pf.win32 = false → pf.dlopen (some path) = 0) :
    (PolyFFILoadLibrary pf arg td).1 = TAGGED 0 ∧
    ∃ msg, (PolyFFILoadLibrary pf arg td).2.exception = some ⟨ExnId.EXC_foreign, msg, 0⟩ ∧
      msg.length ≤ 255 ∧
      (cstr path).take 246 <:+: msg ∧
      ((cstr path).length ≤ 246 → cstr path <:+: msg) := by
  rw [PolyFFILoadLibrary_failure pf arg td path hpath hwin hposix]
  refine ⟨rfl, _, by rw [hpost], ?_, ?_, ?_⟩
  · simp only [snprintf, List.length_take]
    omega
  · exact take_contains "Loading <".toList (cstr path) _ 246
  · intro hlen
    have h := take_contains "Loading <".toList (cstr path)
      (if pf.win32 then "> failed. Error ".toList ++ fmt_lu pf.GetLastError
       else "> failed: ".toList ++ cstr pf.dlerror) 246
    rwa [List.take_of_length_le hlen] at h

/-- C9, as stated, fails for a long path: on the 64-bit POSIX platform, whose
loader finds nothing, the request for a path of 300 characters leaves pending a
`Foreign` exception whose message has 255 characters and so does not contain
the path. -/
theorem PolyFFILoadLibrary_long_path_is_cut :
    ∃ msg, (PolyFFILoadLibrary linux64 (PolyWord.str (List.replicate 300 'a'))
        emptyTask).2.exception = some ⟨ExnId.EXC_foreign, msg, 0⟩ ∧
      linux64.dlopen (some (List.replicate 300 'a')) = 0 ∧
      cstr (List.replicate 300 'a') = List.replicate 300 'a' ∧
      msg.length ≤ 255 ∧ ¬ (List.replicate 300 'a' <:+: msg) := by
  have hlen : ∀ t : CString, (snprintf 256 t).length ≤ 255 := by
    intro t
    simp only [snprintf, List.length_take]
    omega
  refine ⟨_, rfl, rfl, ?_, hlen _, fun h => ?_⟩
  · unfold cstr
    rw [List.takeWhile_eq_self_iff]
    intro x hx
    rw [List.eq_of_mem_replicate hx]
    decide
  · have h1 := h.length_le
    have h2 := hlen ("Loading <".toList ++
      fmt_s (linux64.Poly_string_to_C_alloc (PolyWord.str (List.replicate 300 'a'))) ++
      "> failed: ".toList ++ cstr linux64.dlerror)
    rw [List.length_replicate] at h1
    omega

end Loader

section Witnesses

theorem linux64_fnAddr_ne_zero : ∀ n ∈ entryPtNames, linux64.fnAddr n ≠ 0 := by
  intro n _
  show 4096 + 16 * n.length ≠ 0
  omega

/-- C1 at concrete inputs: from a task with two roots in use, a lookup that
returns a result, a call with an unknown opcode that raises, a failing library
load and the creation of an entry point all leave the depth at two. -/
theorem entry_operations_keep_save_vector_depth_witness :
    (armed emptyTask (TAGGED 7) (TAGGED 9)).depth = 2 ∧
    (PolyFFIGeneral linux64 (TAGGED 51) (TAGGED 3) (armed emptyTask (TAGGED 7) (TAGGED 9))).1
      = TAGGED 2 ∧
    (PolyFFIGeneral linux64 (TAGGED 51) (TAGGED 3)
      (armed emptyTask (TAGGED 7) (TAGGED 9))).2.depth
      = (armed emptyTask (TAGGED 7) (TAGGED 9)).depth ∧
    (PolyFFIGeneral linux64 (TAGGED 99) (TAGGED 3)
      (armed emptyTask (TAGGED 7) (TAGGED 9))).2.exception ≠ none ∧
    (PolyFFIGeneral linux64 (TAGGED 99) (TAGGED 3)
      (armed emptyTask (TAGGED 7) (TAGGED 9))).2.depth
      = (armed emptyTask (TAGGED 7) (TAGGED 9)).depth ∧
    (PolyFFILoadLibrary linux64 (PolyWord.str "libnone.so".toList)
      (armed emptyTask (TAGGED 7) (TAGGED 9))).2.depth
      = (armed emptyTask (TAGGED 7) (TAGGED 9)).depth ∧
    (PolyCreateEntryPointObject linux64 (PolyWord.str "PolyChDir".toList)
      (armed emptyTask (TAGGED 7) (TAGGED 9))).2.depth
      = (armed emptyTask (TAGGED 7) (TAGGED 9)).depth :=
  have h := entry_operations_keep_save_vector_depth linux64 (fun _ => rfl) (fun _ => rfl)
  ⟨rfl, by decide, h.1 _ _ _, by decide, h.1 _ _ _, h.2.2.1 _ _, h.2.2.2.2.2.2.2.2 _ _⟩

/-- C2 at concrete inputs: the unknown opcode 77, the index 16 of the constant
table and a descriptor construction without memory make `poly_ffi` raise and
`PolyFFIGeneral` return `TAGGED(0)`; opcode 52 with index 11 makes `poly_ffi`
return the handle of slot 2 and `PolyFFIGeneral` return the word in that slot. -/
theorem PolyFFIGeneral_returns_sentinel_or_word_witness :
    (poly_ffi linux64 (Handle.slot 1) (Handle.slot 0)
      (armed emptyTask (TAGGED 77) (TAGGED 0))).1 = none ∧
    (PolyFFIGeneral linux64 (TAGGED 77) (TAGGED 0) emptyTask).1 = TAGGED 0 ∧
    (PolyFFIGeneral linux64 (TAGGED 51) (TAGGED 16) emptyTask).1 = TAGGED 0 ∧
    (PolyFFIGeneral linux64 (TAGGED 51) (TAGGED 16) emptyTask).2.exception
      = some ⟨ExnId.EXC_foreign, "Index out of range".toList, 0⟩ ∧
    (PolyFFIGeneral linux64NoMemory (TAGGED 54)
      (PolyWord.tuple4 (TAGGED 16) (TAGGED 8) (TAGGED 13) (mlList [])) emptyTask).1
      = TAGGED 0 ∧
    (PolyFFIGeneral linux64NoMemory (TAGGED 54)
      (PolyWord.tuple4 (TAGGED 16) (TAGGED 8) (TAGGED 13) (mlList [])) emptyTask).2.exception
      = some ⟨ExnId.EXC_syserr, "Insufficient memory".toList, 12⟩ ∧
    (poly_ffi linux64 (Handle.slot 1) (Handle.slot 0)
      (armed emptyTask (TAGGED 52) (TAGGED 11))).1 = some (Handle.slot 2) ∧
    (∃ i, Handle.slot 2 = Handle.slot i ∧
      (PolyFFIGeneral linux64 (TAGGED 52) (TAGGED 11) emptyTask).1 =
        (poly_ffi linux64 (Handle.slot 1) (Handle.slot 0)
          (armed emptyTask (TAGGED 52) (TAGGED 11))).2.saveVec.save_vec i) ∧
    (PolyFFIGeneral linux64 (TAGGED 52) (TAGGED 11) emptyTask).1 = sysword 8456 :=
  ⟨by decide,
    (PolyFFIGeneral_returns_sentinel_or_word linux64 (fun _ => rfl) (TAGGED 77) (TAGGED 0)
      emptyTask).1 (by decide),
    (PolyFFIGeneral_returns_sentinel_or_word linux64 (fun _ => rfl) (TAGGED 51) (TAGGED 16)
      emptyTask).1 (by decide),
    by decide,
    (PolyFFIGeneral_returns_sentinel_or_word linux64NoMemory (fun _ => rfl) (TAGGED 54)
      (PolyWord.tuple4 (TAGGED 16) (TAGGED 8) (TAGGED 13) (mlList [])) emptyTask).1 (by decide),
    by decide,
    by decide,
    (PolyFFIGeneral_returns_sentinel_or_word linux64 (fun _ => rfl) (TAGGED 52) (TAGGED 11)
      emptyTask).2 (Handle.slot 2) (by decide),
    by decide⟩

/-- C3 at concrete inputs: the name `PolyChDir` of the table gives a record
whose slot holds the address of that function; the name `PolyChDi`, which no
entry has, gives the `Fail` exception. -/
theorem creatEntryPointObject_by_name_witness :
    (∃ h td1 p,
      creatEntryPointObject linux64 (Handle.slot 0)
          (armed emptyTask (PolyWord.str "PolyChDir".toList) (TAGGED 0)) = (some h, td1) ∧
        td1.saveVec.Word h = PolyWord.obj p ∧ p.word0 = linux64.fnAddr "PolyChDir" ∧
        p.word0 ≠ 0) ∧
    (∃ td1,
      creatEntryPointObject linux64 (Handle.slot 0)
          (armed emptyTask (PolyWord.str "PolyChDi".toList) (TAGGED 0)) = (none, td1) ∧
        td1.exception = some ⟨ExnId.EXC_Fail, "entry point not found".toList, 0⟩) :=
  ⟨(creatEntryPointObject_by_name linux64
      (armed emptyTask (PolyWord.str "PolyChDir".toList) (TAGGED 0)) (Handle.slot 0)
      "PolyChDir".toList (by decide) linux64_fnAddr_ne_zero rfl).1 "PolyChDir" (by decide)
      (by decide),
    (creatEntryPointObject_by_name linux64
      (armed emptyTask (PolyWord.str "PolyChDi".toList) (TAGGED 0)) (Handle.slot 0)
      "PolyChDi".toList (by decide) linux64_fnAddr_ne_zero rfl).2 (by decide)⟩

/-- C4 at concrete inputs: a three-word record named `PolyFullGC` with a
cleared slot is resolved to the address of that function; a record with the
name `PolyGone` and a stale address in its slot is left with a zero slot. -/
theorem setEntryPoint_resolves_by_name_witness :
    setEntryPoint linux64 ⟨3, 0, "PolyFullGC".toList ++ List.replicate 6 NUL⟩
      = (true, ⟨3, 4256, "PolyFullGC".toList ++ List.replicate 6 NUL⟩) ∧
    linux64.fnAddr "PolyFullGC" = 4256 ∧
    setEntryPoint linux64 ⟨2, 77777, "PolyGone".toList⟩ = (false, ⟨2, 0, "PolyGone".toList⟩) :=
  ⟨((setEntryPoint_resolves_by_name linux64
      ⟨3, 0, "PolyFullGC".toList ++ List.replicate 6 NUL⟩ linux64_fnAddr_ne_zero
      (by decide)).1 "PolyFullGC" (by decide) (by decide)).1,
    by decide,
    (setEntryPoint_resolves_by_name linux64 ⟨2, 77777, "PolyGone".toList⟩
      linux64_fnAddr_ne_zero (by decide)).2 (by decide)⟩

/-- C5 at concrete inputs: index 16 of the constant table raises and changes
only the pending exception; index 19 of the type table returns the last entry. -/
theorem table_lookup_checks_bounds_witness :
    poly_ffi linux64 (Handle.slot 1) (Handle.slot 0) (armed emptyTask (TAGGED 51) (TAGGED 16))
      = (none, { armed emptyTask (TAGGED 51) (TAGGED 16) with
          exception := some ⟨ExnId.EXC_foreign, "Index out of range".toList, 0⟩ }) ∧
    (∃ r, (poly_ffi linux64 (Handle.slot 1) (Handle.slot 0)
          (armed emptyTask (TAGGED 52) (TAGGED 19))).1 = some r ∧
        (poly_ffi linux64 (Handle.slot 1) (Handle.slot 0)
          (armed emptyTask (TAGGED 52) (TAGGED 19))).2.saveVec.Word r
          = PolyWord.obj ⟨1, linux64.ffiTypeAddr FfiPrim.ffi_type_slong, []⟩) :=
  ⟨((table_lookup_checks_bounds linux64 (Handle.slot 1) (Handle.slot 0)
      (armed emptyTask (TAGGED 51) (TAGGED 16)) 16 (by norm_num) rfl).2.2.1 rfl).1 (by decide),
    ((table_lookup_checks_bounds linux64 (Handle.slot 1) (Handle.slot 0)
      (armed emptyTask (TAGGED 52) (TAGGED 19)) 19 (by norm_num) rfl).2.2.2 rfl).2 (by decide)⟩

/-- C6 at a concrete input: the descriptor built from two element descriptors
has its element array right after the header, holding the two and a null. -/
theorem buildCompound_element_array_witness :
    ∃ td1, callFFI linux64 54 (PolyWord.tuple4 (PolyWord.int 16) (PolyWord.int 8)
          (PolyWord.int 13) (mlList [sysword 8432, sysword 8456])) emptyTask =
        (some (sysword 65536), td1) ∧
      (td1.ffiTypes 65536).elements = 65536 + 24 ∧
      holdsElements 8 td1.ffiElems (td1.ffiTypes 65536).elements [8432, 8456] :=
  match buildCompound_element_array linux64 emptyTask 16 8 13 [sysword 8432, sysword 8456]
      (by decide) (by decide) (by decide) (by decide) (by decide) (by decide) with
  | ⟨td1, h1, h2, _⟩ => ⟨td1, h1, (h2 (by decide)).1, (h2 (by decide)).2⟩

/-- C7 at a concrete input: the struct of two doubles at address 4096 is
introspected, rebuilt at a fresh address and introspected again with the same
fields and the same two element descriptors. -/
theorem introspect_build_round_trip_witness :
    elementsOf 8 structTask.ffiElems 3 (structTask.ffiTypes 4096).elements
      = some [8432, 8432] ∧
    ∃ size align type elems td1 r td2 elems2 td3,
      callFFI linux64 53 (sysword 4096) structTask
        = (some (PolyWord.tuple4 size align type elems), td1) ∧
      size = PolyWord.int 16 ∧ align = PolyWord.int 8 ∧ type = PolyWord.int 13 ∧
      elems = sysword 4120 ∧
      elementsOf 8 td1.ffiElems 3 elems.word0 = some [8432, 8432] ∧
      callFFI linux64 54 (PolyWord.tuple4 size align type
        (mlList ([8432, 8432].map sysword))) td1 = (some r, td2) ∧
      callFFI linux64 53 r td2 = (some (PolyWord.tuple4 size align type elems2), td3) ∧
      elementsOf 8 td3.ffiElems 3 elems2.word0 = some [8432, 8432] :=
  ⟨by decide,
    introspect_build_round_trip linux64 structTask 4096 3 [8432, 8432] (by decide)
      (by decide) (by decide) (by decide) (by decide) (by decide) (by decide) (by decide)⟩

/-- C8 at the failing input: the opcode 4294967295 gives the message
`Unknown ffi function: -1`, which does not carry the code. -/
theorem unknown_opcode_message_prints_signed_witness :
    poly_ffi linux64 (Handle.slot 1) (Handle.slot 0)
        (armed emptyTask (TAGGED 4294967295) (TAGGED 0))
      = (none, { armed emptyTask (TAGGED 4294967295) (TAGGED 0) with
          exception := some ⟨ExnId.EXC_foreign, "Unknown ffi function: -1".toList, 0⟩ }) ∧
    "Unknown ffi function: -1".toList
      ≠ "Unknown ffi function: ".toList ++ (toString (4294967295 : Nat)).toList :=
  ⟨(unknown_opcode_message_prints_signed linux64 (Handle.slot 1) (Handle.slot 0)
      (armed emptyTask (TAGGED 4294967295) (TAGGED 0)) 4294967295 (by norm_num)
      (Or.inr (by norm_num)) rfl).1,
    by decide⟩

/-- C9 at a concrete input: the request for `libnone.so`, which the loader
does not find, leaves a message that contains the path. -/
theorem PolyFFILoadLibrary_failure_message_witness :
    (PolyFFILoadLibrary linux64 (PolyWord.str "libnone.so".toList) emptyTask).1 = TAGGED 0 ∧
    ∃ msg, (PolyFFILoadLibrary linux64 (PolyWord.str "libnone.so".toList)
        emptyTask).2.exception = some ⟨ExnId.EXC_foreign, msg, 0⟩ ∧
      msg.length ≤ 255 ∧
      (cstr "libnone.so".toList).take 246 <:+: msg ∧
      ((cstr "libnone.so".toList).length ≤ 246 → cstr "libnone.so".toList <:+: msg) :=
  PolyFFILoadLibrary_failure_message linux64 (fun _ => rfl) (PolyWord.str "libnone.so".toList)
    emptyTask "libnone.so".toList rfl (fun h => absurd h (by decide)) (fun _ => rfl)

/-- C10 at concrete inputs: the value -1 of `errno` on the 64-bit POSIX
platform and the value 4294967295 of the last-error code on Windows are
restored. -/
theorem get_error_then_set_error_restores_witness :
    (PolyFFISetError linux64 (PolyFFIGetError linux64 ⟨-1, 0⟩ ⟨1, 0, []⟩).2 ⟨-1, 0⟩).2
      = ⟨-1, 0⟩ ∧
    (PolyFFIGetError linux64 ⟨-1, 0⟩ ⟨1, 0, []⟩).2.word0 = 18446744073709551615 ∧
    (PolyFFISetError windows64 (PolyFFIGetError windows64 ⟨0, 4294967295⟩ ⟨1, 0, []⟩).2
      ⟨0, 4294967295⟩).2 = ⟨0, 4294967295⟩ :=
  ⟨(get_error_then_set_error_restores linux64 ⟨-1, 0⟩ ⟨1, 0, []⟩ (by decide)
      ⟨by norm_num, by norm_num⟩ (by norm_num)).2.2,
    by decide,
    (get_error_then_set_error_restores windows64 ⟨0, 4294967295⟩ ⟨1, 0, []⟩ (by decide)
      ⟨by norm_num, by norm_num⟩ (by norm_num)).2.2⟩

/-- C11 at the failing input: a record named `PolyFFIGeneral`, a name that
`polyFFIEPT` lists with the address of the function, is left unresolved by
`setEntryPoint`, and the creation of an entry point of that name fails. -/
theorem setEntryPoint_misses_polyFFIEPT_witness :
    "PolyFFIGeneral" ∈ polyFFIEPTNames ∧
    ({ name := some "PolyFFIGeneral", entry := 4320 } : _entrypts) ∈ polyFFIEPT linux64 ∧
    setEntryPoint linux64 ⟨3, 4321, "PolyFFIGeneral".toList ++ List.replicate 2 NUL⟩
      = (false, ⟨3, 0, "PolyFFIGeneral".toList ++ List.replicate 2 NUL⟩) ∧
    (PolyCreateEntryPointObject linux64 (PolyWord.str "PolyFFIGeneral".toList) emptyTask).1
      = TAGGED 0 ∧
    (PolyCreateEntryPointObject linux64 (PolyWord.str "PolyFFIGeneral".toList)
      emptyTask).2.exception = some ⟨ExnId.EXC_Fail, "entry point not found".toList, 0⟩ :=
  ⟨by decide,
    (setEntryPoint_misses_polyFFIEPT linux64
      ⟨3, 4321, "PolyFFIGeneral".toList ++ List.replicate 2 NUL⟩ "PolyFFIGeneral"
      (by decide) (by decide) (by decide)).1,
    (setEntryPoint_misses_polyFFIEPT linux64
      ⟨3, 4321, "PolyFFIGeneral".toList ++ List.replicate 2 NUL⟩ "PolyFFIGeneral"
      (by decide) (by decide) (by decide)).2,
    by decide, by decide⟩

/-- C13 at concrete inputs: the record made for `PolyChDir` has three words
and gives back the name `PolyChDir`; the record made for the empty name has
two words. -/
theorem getEntryPointName_of_created_record_witness :
    1 < entryPointSpace linux64 [] ∧ entryPointSpace linux64 [] = 2 ∧
    ∃ p, (creatEntryPointObject linux64 (Handle.slot 0)
          (armed emptyTask (PolyWord.str "PolyChDir".toList) (TAGGED 0))).2.saveVec.Word
          (Handle.slot 2) = PolyWord.obj p ∧
      p.length = entryPointSpace linux64 "PolyChDir".toList ∧ 1 < p.length ∧
      (∃ rest, p.bytes = cstr "PolyChDir".toList ++ NUL :: rest) ∧
      getEntryPointName p = some (cstr "PolyChDir".toList) :=
  ⟨(getEntryPointName_of_created_record linux64
      (armed emptyTask (PolyWord.str []) (TAGGED 0)) (Handle.slot 0) [] (by decide) rfl).1,
    by decide,
    (getEntryPointName_of_created_record linux64
      (armed emptyTask (PolyWord.str "PolyChDir".toList) (TAGGED 0)) (Handle.slot 0)
      "PolyChDir".toList (by decide) rfl).2 (Handle.slot 2) _ (Prod.ext (by decide) rfl)⟩

/-- C14 at a concrete input: for the name `abcdefgh` of eight characters and a
word of eight bytes the record has three words, sixteen bytes after the slot
for the nine the copy writes. -/
theorem entryPointSpace_holds_name_witness :
    entryPointSpace linux64 "abcdefgh".toList = 3 ∧ strlen "abcdefgh".toList = 8 ∧
    strlen "abcdefgh".toList + 1
      ≤ (entryPointSpace linux64 "abcdefgh".toList - 1) * linux64.sizeofPolyWord ∧
    (entryPointSpace linux64 "abcdefgh".toList - 1) * linux64.sizeofPolyWord
      < strlen "abcdefgh".toList + 1 + linux64.sizeofPolyWord ∧
    ∃ p, (creatEntryPointObject linux64 (Handle.slot 0)
          (armed emptyTask (PolyWord.str "abcdefgh".toList) (TAGGED 0))).2.saveVec.save_vec 2
        = PolyWord.obj p ∧
      p.length = entryPointSpace linux64 "abcdefgh".toList ∧
      p.bytes.length = (p.length - 1) * linux64.sizeofPolyWord :=
  ⟨by decide, by decide,
    (entryPointSpace_holds_name linux64
      (armed emptyTask (PolyWord.str "abcdefgh".toList) (TAGGED 0)) (Handle.slot 0)
      "abcdefgh".toList (by decide) rfl).2⟩

end Witnesses

end PolyML
